import Mathlib

/-!
Verification development for the nutrition-ai-logger repository.

Shallow embedding of the core pipeline: audio encoding (audioUtils),
the serverless extraction endpoint (api/process-audio.ts), the recording
service (services/processAudioService.ts) and the session-state
reconciliation logic of the main App component.

JavaScript numbers are modelled as exact rationals (ℚ); where the code can
meet NaN/Infinity an explicit JSNum type is used.  JS bitwise/typed-array
truncation is modelled with explicit mod-2^16 arithmetic on ℤ.
-/

namespace NutritionLogger

/-! ## JS numeric primitives

Core `Rat.add`, `Rat.mul` and `Rat.inv` are compiled externs whose bodies
do not reduce inside the kernel, so the embedding computes with the
`Rat.divInt`/`mkRat` forms below; they are proved equal to `+`, `*` and
`/` in the bridge theorems `ratAdd_eq`, `ratMul_eq`, `ratDiv_eq`, and the
claim statements use the ordinary operations. -/

/-- Executable rational addition. -/
def ratAdd (a b : ℚ) : ℚ := Rat.divInt (a.num * b.den + b.num * a.den) (a.den * b.den)

/-- Executable rational multiplication. -/
def ratMul (a b : ℚ) : ℚ := Rat.divInt (a.num * b.num) (a.den * b.den)

/-- Executable rational division. -/
def ratDiv (a b : ℚ) : ℚ := Rat.divInt (a.num * b.den) (a.den * b.num)

/-- JS Math.round: round half toward positive infinity
(`jsRound_eq` restates this as `⌊q + 1/2⌋`). -/
def jsRound (q : ℚ) : ℤ := ⌊ratAdd q (mkRat 1 2)⌋

/-- Rounding to one decimal place, as `Math.round(v * 10) / 10`
(`roundTo1_eq` restates this with ordinary arithmetic). -/
def roundTo1 (q : ℚ) : ℚ := Rat.divInt (jsRound (ratMul q 10)) 10

/-- JS ToInteger truncation (toward zero) of a finite number. -/
def jsTrunc (q : ℚ) : ℤ := if 0 ≤ q then ⌊q⌋ else -⌊-q⌋

/-- JS ToInt16: wrap an integer into the signed 16-bit range. -/
def int16OfInt (n : ℤ) : ℤ := (n + 2 ^ 15) % 2 ^ 16 - 2 ^ 15

/-- A JS number: a finite rational, NaN, or a signed infinity. -/
inductive JSNum where
  | fin (q : ℚ)
  | nan
  | inf
  | ninf
deriving DecidableEq, Repr

/-- JS Math.min (NaN propagates). -/
def jsMin : JSNum → JSNum → JSNum
  | .nan, _ => .nan
  | _, .nan => .nan
  | .ninf, _ => .ninf
  | _, .ninf => .ninf
  | .inf, b => b
  | a, .inf => a
  | .fin a, .fin b => .fin (min a b)

/-- JS Math.max (NaN propagates). -/
def jsMax : JSNum → JSNum → JSNum
  | .nan, _ => .nan
  | _, .nan => .nan
  | .inf, _ => .inf
  | _, .inf => .inf
  | .ninf, b => b
  | a, .ninf => a
  | .fin a, .fin b => .fin (max a b)

/-- JS multiplication of a number by a nonzero rational constant. -/
def jsMulConst (a : JSNum) (k : ℚ) : JSNum :=
  match a with
  | .fin q => .fin (ratMul q k)
  | .nan => .nan
  | .inf => if 0 < k then .inf else if k < 0 then .ninf else .nan
  | .ninf => if 0 < k then .ninf else if k < 0 then .inf else .nan

/-- JS comparison `x < 0` (false for NaN). -/
def jsLtZero : JSNum → Bool
  | .fin q => decide (q < 0)
  | .nan => false
  | .inf => false
  | .ninf => true

/-- JS ToInt16 of a JS number (NaN and infinities convert to 0). -/
def toInt16 : JSNum → ℤ
  | .fin q => int16OfInt (jsTrunc q)
  | _ => 0

/-! ## Audio encoder (src audioUtils: float32ToPCM16, buildWavBlob) -/

/-- Per-sample body of `float32ToPCM16`:
`const s = Math.max(-1, Math.min(1, float32[i])); int16[i] = s < 0 ? s * 0x8000 : s * 0x7FFF;`. -/
def pcm16Sample (x : JSNum) : ℤ :=
  let s := jsMax (.fin (-1)) (jsMin (.fin 1) x)
  toInt16 (jsMulConst s (if jsLtZero s then 32768 else 32767))

/-- `float32ToPCM16`: element-wise conversion of float samples to int16. -/
def float32ToPCM16 (xs : List JSNum) : List ℤ := xs.map pcm16Sample

/-- Two little-endian bytes of an unsigned 16-bit value. -/
def u16le (n : Nat) : List Nat := [n % 256, n / 256 % 256]

/-- Four little-endian bytes of an unsigned 32-bit value. -/
def u32le (n : Nat) : List Nat :=
  [n % 256, n / 256 % 256, n / 256 ^ 2 % 256, n / 256 ^ 3 % 256]

/-- Two little-endian bytes of an int16 sample (DataView.setInt16 wrapping). -/
def i16le (s : ℤ) : List Nat := u16le ((s % 2 ^ 16).toNat)

/-- Little-endian byte serialization of a sample list. -/
def samplesBytes : List ℤ → List Nat
  | [] => []
  | s :: rest => i16le s ++ samplesBytes rest

/-- Concatenation of the accumulated PCM chunks. -/
def concatChunks : List (List ℤ) → List ℤ
  | [] => []
  | c :: rest => c ++ concatChunks rest

/-- The 44-byte canonical WAV/RIFF header written by both `buildWavBlob`
and `pcmToWavBase64`: RIFF size, WAVE, fmt chunk (PCM tag 1, 1 channel,
16000 Hz, byte rate 32000, block align 2, 16 bits), data chunk size. -/
def wavHeader (dataSize : Nat) : List Nat :=
  [82, 73, 70, 70] ++ u32le (36 + dataSize) ++
  [87, 65, 86, 69] ++
  [102, 109, 116, 32] ++ u32le 16 ++
  u16le 1 ++ u16le 1 ++
  u32le 16000 ++ u32le 32000 ++
  u16le 2 ++ u16le 16 ++
  [100, 97, 116, 97] ++ u32le dataSize

/-- `buildWavBlob`: header built from `dataSize = totalSamples * 2`, then the
chunks' sample bytes in order (each sample little-endian). -/
def buildWavBlob (chunks : List (List ℤ)) : List Nat :=
  let totalSamples := (chunks.map List.length).sum
  wavHeader (totalSamples * 2) ++ samplesBytes (concatChunks chunks)

/-- `pcmToWavBase64` (endpoint side): prefix the decoded PCM bytes with the
same 44-byte header, `dataSize` being the PCM byte length. -/
def pcmToWav (pcm : List Nat) : List Nat := wavHeader pcm.length ++ pcm

/-! ## Base64 decoding (Node `Buffer.from(s, 'base64')`), used by the
endpoint's minimum-length guard. Invalid characters are skipped and a `=`
terminates the data, as in Node's lenient decoder. -/

/-- Value of one base64 alphabet character (standard plus url-safe). -/
def base64CharVal (c : Char) : Option Nat :=
  if 'A' ≤ c ∧ c ≤ 'Z' then some (c.toNat - 65)
  else if 'a' ≤ c ∧ c ≤ 'z' then some (c.toNat - 97 + 26)
  else if '0' ≤ c ∧ c ≤ '9' then some (c.toNat - 48 + 52)
  else if c = '+' ∨ c = '-' then some 62
  else if c = '/' ∨ c = '_' then some 63
  else none

/-- Decode groups of four 6-bit digits into three bytes; a trailing group of
two or three digits yields one or two bytes. -/
def b64groups : List Nat → List Nat
  | a :: b :: c :: d :: rest =>
    (a * 4 + b / 16) :: ((b % 16) * 16 + c / 4) :: ((c % 4) * 64 + d) :: b64groups rest
  | [a, b, c] => [a * 4 + b / 16, (b % 16) * 16 + c / 4]
  | [a, b] => [a * 4 + b / 16]
  | _ => []

/-- Bytes obtained by base64-decoding a string. -/
def base64Decode (s : String) : List Nat :=
  b64groups ((s.data.takeWhile (fun c => c ≠ '=')).filterMap base64CharVal)

/-! ## Extraction endpoint (src/api/process-audio.ts) -/

/-- Arguments of a `log_food` tool call, as read off `fc.args`; every field
may be absent in the model's output. -/
structure FoodArgs where
  name : Option String := none
  quantity : Option String := none
  calories : Option ℚ := none
  protein : Option ℚ := none
  carbs : Option ℚ := none
  fat : Option ℚ := none
  fiber : Option ℚ := none
  micronutrients : Option String := none
deriving DecidableEq, Repr

/-- A function-call content part (`{ name, args }`; the declared interface
gives `args` as always present, so the code's `fc.args` guard is vacuous). -/
structure FnCall where
  name : String
  args : FoodArgs
deriving DecidableEq, Repr

/-- One content part of the upstream response: optional text, and the
function call under either of its two wire spellings. -/
structure Part where
  text : Option String := none
  functionCall : Option FnCall := none
  function_call : Option FnCall := none
deriving DecidableEq, Repr

/-- `part.functionCall ?? part.function_call`. -/
def Part.call (p : Part) : Option FnCall :=
  match p.functionCall with
  | some fc => some fc
  | none => p.function_call

/-- A FoodEntry as emitted in the endpoint's JSON response: fields copied
from the call arguments, with `fiber` defaulted to 0 and `micronutrients`
defaulted to the empty string. -/
structure FoodOut where
  name : Option String
  quantity : Option String
  calories : Option ℚ
  protein : Option ℚ
  carbs : Option ℚ
  fat : Option ℚ
  fiber : ℚ
  micronutrients : String
deriving DecidableEq, Repr

/-- Conversion of `log_food` arguments into the response entry
(`fiber: args.fiber ?? 0, micronutrients: args.micronutrients ?? ''`). -/
def foodOfArgs (a : FoodArgs) : FoodOut :=
  ⟨a.name, a.quantity, a.calories, a.protein, a.carbs, a.fat,
    a.fiber.getD 0, a.micronutrients.getD ("")⟩

/-- The endpoint's part scan, accumulator form: `if (part.text)` keeps the
last truthy (nonempty) text as the transcription; each part whose call is
named log_food appends one entry. -/
def normalizeParts : List Part → Option String → List FoodOut → Option String × List FoodOut
  | [], tr, foods => (tr, foods)
  | p :: rest, tr, foods =>
    let tr2 := match p.text with
      | some t => if t = "" then tr else some t
      | none => tr
    let foods2 := match p.call with
      | some fc => if fc.name = "log_food" then foods ++ [foodOfArgs fc.args] else foods
      | none => foods
    normalizeParts rest tr2 foods2

/-- Response normalization over the first candidate's parts. -/
def normalizeResponse (parts : List Part) : Option String × List FoodOut :=
  normalizeParts parts none []

/-- Claim-side per-part conversion: the entry produced by a part, if any. -/
def partFood (p : Part) : Option FoodOut :=
  match p.call with
  | some fc => if fc.name = "log_food" then some (foodOfArgs fc.args) else none
  | none => none

/-- Claim-side predicate: the part carries a function call named log_food. -/
def carriesLogFood (p : Part) : Bool :=
  match p.call with
  | some fc => decide (fc.name = "log_food")
  | none => false

/-- Truthy text of a part (`if (part.text)`). -/
def partText (p : Part) : Option String :=
  match p.text with
  | some t => if t = "" then none else some t
  | none => none

/-- One upstream HTTP exchange: the status, the error body text (read when
not ok) and the parsed content parts (read when ok). -/
structure UpResp where
  status : Nat
  body : String
  parts : List Part
deriving Repr

/-- `fetch` Response.ok: status in the 200-299 range. -/
def UpResp.ok (r : UpResp) : Bool := decide (200 ≤ r.status ∧ r.status < 300)

def maxRetries : Nat := 2

def retryDelayMs : Nat := 2000

/-- Outcome of the endpoint's fetch/retry loop. -/
structure FetchLoopOut where
  attempts : Nat
  final : UpResp
  errText : String
  delays : List Nat
deriving Repr

/-- The retry loop from attempt number `attempt`: break on ok; otherwise
record the body text, and retry (after a fixed delay) only when the status
is 503 or 429 and attempts remain. -/
def fetchLoopFrom (respAt : Nat → UpResp) (attempt : Nat) (errText : String)
    (delays : List Nat) : FetchLoopOut :=
  let r := respAt attempt
  if r.ok then ⟨attempt + 1, r, errText, delays⟩
  else if (r.status = 503 ∨ r.status = 429) ∧ attempt < maxRetries then
    fetchLoopFrom respAt (attempt + 1) r.body (delays ++ [retryDelayMs])
  else ⟨attempt + 1, r, r.body, delays⟩
termination_by maxRetries + 1 - attempt
decreasing_by omega

/-- The whole loop (`for (let attempt = 0; attempt <= maxRetries; ...)`). -/
def fetchLoop (respAt : Nat → UpResp) : FetchLoopOut := fetchLoopFrom respAt 0 "" []

/-- A JSON value of a request-body field: a string or something else. -/
inductive JsVal where
  | str (s : String)
  | other
deriving DecidableEq, Repr

/-- The request body fields the endpoint reads. -/
structure ReqBody where
  audioBase64 : Option JsVal := none
  preferredLanguage : Option JsVal := none
deriving DecidableEq, Repr

/-- An inbound request: HTTP method and optional parsed body. -/
structure Req where
  method : String
  body : Option ReqBody
deriving DecidableEq, Repr

/-- Truthiness of the environment credential (`if (!apiKey)`). -/
def apiKeyTruthy : Option String → Bool
  | some s => decide (s ≠ "")
  | none => false

/-- The audio payload accepted by `!audioBase64 || typeof audioBase64 !==
'string'`: present, a string, and nonempty. -/
def audioField : Option ReqBody → Option String
  | some b =>
    match b.audioBase64 with
    | some (.str s) => if s = "" then none else some s
    | _ => none
  | none => none

/-- `preferredLanguage === 'pt-BR' ? 'pt-BR' : 'en-US'`. -/
def selectLanguage (body : Option ReqBody) : String :=
  match body with
  | some b =>
    match b.preferredLanguage with
    | some (.str s) => if s = "pt-BR" then ("pt-BR") else ("en-US")
    | _ => "en-US"
  | none => "en-US"

/-- The language-specific instruction sentence inserted in the prompt. -/
def languageInstruction (lang : String) : String :=
  if lang = "pt-BR" then
    ("The speaker may be using Portuguese (Brazil). Understand Portuguese naturally and extract each food/drink item correctly. Keep the transcription in Portuguese when possible.")
  else
    ("The speaker may be using English. Understand English naturally and extract each food/drink item correctly.")

/-- The instruction the handler would send upstream for a request. -/
def handlerInstruction (req : Req) : String :=
  languageInstruction (selectLanguage req.body)

/-- The endpoint's HTTP response: a 200 success with transcription and
foods, or a failure with status, error label, and optional details. -/
inductive HandlerResp where
  | success (transcription : Option String) (foods : List FoodOut)
  | failure (status : Nat) (error : String) (details : Option String)
deriving DecidableEq, Repr

/-- HTTP status of a handler response. -/
def HandlerResp.status : HandlerResp → Nat
  | .success _ _ => 200
  | .failure s _ _ => s

/-- Observable outcome of one endpoint invocation: the HTTP response, how
many upstream calls were issued, the delays slept between attempts, and the
WAV payload sent upstream (when any call was made). -/
structure HandlerOut where
  resp : HandlerResp
  upstreamCalls : Nat
  delays : List Nat
  wavPayload : Option (List Nat)
deriving Repr

/-- The endpoint handler: method check, credential check, payload checks,
WAV framing, retry loop, error mapping, response normalization. -/
def handler (apiKey : Option String) (req : Req) (respAt : Nat → UpResp) : HandlerOut :=
  if req.method ≠ "POST" then
    ⟨.failure 405 "Method not allowed" none, 0, [], none⟩
  else if ¬ apiKeyTruthy apiKey then
    ⟨.failure 500 "Server missing GEMINI_API_KEY" none, 0, [], none⟩
  else
    match audioField req.body with
    | none => ⟨.failure 400 "Missing audioBase64 in body" none, 0, [], none⟩
    | some s =>
      if (base64Decode s).length < 1000 then
        ⟨.failure 400 "Audio too short. Hold the mic a bit longer." none, 0, [], none⟩
      else
        let wav := pcmToWav (base64Decode s)
        let lr := fetchLoop respAt
        if lr.final.ok then
          let norm := normalizeResponse lr.final.parts
          ⟨.success norm.1 norm.2, lr.attempts, lr.delays, some wav⟩
        else if lr.final.status = 429 then
          ⟨.failure 429 "Quota exceeded"
            (some ("Gemini rate limit reached. Wait a minute or check your plan at ai.google.dev.")),
            lr.attempts, lr.delays, some wav⟩
        else if lr.final.status = 503 then
          ⟨.failure 503 "Model overloaded" (some ("Gemini is busy. Try again in a moment.")),
            lr.attempts, lr.delays, some wav⟩
        else
          ⟨.failure 502 (if lr.final.status = 401 then ("Invalid API key") else ("Upstream API error"))
            (some ⟨lr.errText.data.take 200⟩), lr.attempts, lr.delays, some wav⟩

/-! ## Recording service (src/services/processAudioService.ts) -/

/-- Client recording session state: the `active` flag, whether the capture
device (stream/processor/source) is held, the testing-mode flag, and the
accumulated PCM chunks. -/
structure SvcState where
  active : Bool
  deviceHeld : Bool
  testingMode : Bool
  pcmChunks : List (List ℤ)
deriving Repr

/-- Operations on the session whose effects we model. -/
inductive SvcOp where
  | start
  | frame (samples : List JSNum)
  | stopInput
  | cancel
deriving DecidableEq, Repr

/-- One step of the service.  The second component is the network
submission issued by the step, as the raw little-endian PCM byte payload
(the body the client base64-encodes and POSTs): `start` acquires the device
and resets the buffer; an audio frame is converted with `float32ToPCM16`
and appended while active; `stopInput` returns early when not active,
otherwise releases the device, concatenates the chunks and (outside testing
mode) sends; `stop` (hard cancel) releases everything and sends nothing. -/
def svcStep (st : SvcState) : SvcOp → SvcState × Option (List Nat)
  | .start => ({ st with active := true, deviceHeld := true, pcmChunks := [] }, none)
  | .frame samples =>
    if st.active then
      ({ st with pcmChunks := st.pcmChunks ++ [float32ToPCM16 samples] }, none)
    else (st, none)
  | .stopInput =>
    if st.active then
      let payload := samplesBytes (concatChunks st.pcmChunks)
      let st2 := { st with active := false, deviceHeld := false, pcmChunks := [] }
      (st2, if st.testingMode then none else some payload)
    else (st, none)
  | .cancel => ({ st with active := false, deviceHeld := false }, none)

/-! ## Session state reconciler (main App component) -/

/-- A meal group held in local state. -/
structure MealGroup where
  id : String
  label : String
  createdAt : Nat
  transcriptSnippet : Option String := none
  isLoading : Bool := false
deriving DecidableEq, Repr

/-- A persisted food item, bound to its meal. -/
structure FoodItem where
  id : String
  mealId : String
  name : String
  quantity : String
  calories : ℚ
  protein : ℚ
  carbs : ℚ
  fat : ℚ
  fiber : ℚ
  micronutrients : Option String := none
  timestamp : Nat
deriving DecidableEq, Repr

/-- Food data as delivered by the extraction client (no id, meal, time). -/
structure FoodData where
  name : String
  quantity : String
  calories : ℚ
  protein : ℚ
  carbs : ℚ
  fat : ℚ
  fiber : ℚ
  micronutrients : Option String := none
deriving DecidableEq, Repr

/-- The App-level local state the reconciler owns. -/
structure AppState where
  items : List FoodItem
  meals : List MealGroup
  activeMealId : Option String
  recordingFoodsCount : Nat
  error : Option String
deriving Repr

/-- Optimistic phase of `handleFoodLogged`: bind the entry to the active
recording meal, creating `freshMeal` lazily (prepended, as
`createMealGroup` does) when none is active; prepend the new item; bump the
recording count.  Returns the new state, the item, and the newly created
meal if one was made for this item. -/
def foodLoggedOptimistic (st : AppState) (food : FoodData) (newItemId : String)
    (ts : Nat) (freshMeal : MealGroup) : AppState × FoodItem × Option MealGroup :=
  let pick : String × Option MealGroup :=
    match st.activeMealId with
    | some m => (m, none)
    | none => (freshMeal.id, some freshMeal)
  let newItem : FoodItem :=
    ⟨newItemId, pick.1, food.name, food.quantity, food.calories, food.protein,
      food.carbs, food.fat, food.fiber, food.micronutrients, ts⟩
  let st2 : AppState :=
    { st with
      meals := match pick.2 with | some m => m :: st.meals | none => st.meals,
      items := newItem :: st.items,
      recordingFoodsCount := st.recordingFoodsCount + 1 }
  (st2, newItem, pick.2)

/-- Rollback run when the persistence insert fails: surface the error,
filter out exactly the new item, and (only if a meal was newly created for
this item) filter out that meal.  It acts on whatever the local state is
when the failure arrives. -/
def foodLoggedRollback (newItemId : String) (createdMealId : Option String)
    (msg : String) (st : AppState) : AppState :=
  { st with
    error := some msg,
    items := st.items.filter (fun it => decide (it.id ≠ newItemId)),
    meals := match createdMealId with
      | some mid => st.meals.filter (fun m => decide (m.id ≠ mid))
      | none => st.meals }

/-- The whole `handleFoodLogged` turn with the persistence outcome decided
immediately: no collaborator configured keeps the optimistic state; a
successful insert keeps it too; a failed insert applies the rollback. -/
def handleFoodLogged (st : AppState) (food : FoodData) (newItemId : String)
    (ts : Nat) (freshMeal : MealGroup) (userId : Option String)
    (persistOk : Bool) (errMsg : String) : AppState :=
  let opt := foodLoggedOptimistic st food newItemId ts freshMeal
  match userId with
  | none => opt.1
  | some _ =>
    if persistOk then opt.1
    else foodLoggedRollback newItemId (opt.2.2.map MealGroup.id) errMsg opt.1

/-- Orphan-meal pruning effect: keep a meal iff some item references it or
it is the active recording meal; the removed ids are mirrored as
`deleteMeal` calls when a user session exists. -/
def pruneMeals (items : List FoodItem) (activeMealId : Option String)
    (userId : Option String) (meals : List MealGroup) : List MealGroup × List String :=
  let used := items.map FoodItem.mealId
  let keep := meals.filter (fun m => decide (m.id ∈ used ∨ activeMealId = some m.id))
  let removedIds :=
    (meals.filter (fun m => decide (¬ (m.id ∈ used ∨ activeMealId = some m.id)))).map MealGroup.id
  (keep, if userId.isSome then removedIds else [])

/-- The service `onClose` callback: with an active meal and zero logged
foods, drop the meal locally and issue its remote deletion; with foods,
clear its awaiting-extraction (`isLoading`) flag; then reset the recording
refs.  The second component is the list of `deleteMeal` requests issued. -/
def onCloseModel (st : AppState) : AppState × List String :=
  match st.activeMealId with
  | some mid =>
    if st.recordingFoodsCount = 0 then
      ({ st with
          meals := st.meals.filter (fun m => decide (m.id ≠ mid)),
          activeMealId := none,
          recordingFoodsCount := 0 }, [mid])
    else
      ({ st with
          meals := st.meals.map (fun m => if m.id = mid then { m with isLoading := false } else m),
          activeMealId := none,
          recordingFoodsCount := 0 }, [])
  | none => ({ st with activeMealId := none, recordingFoodsCount := 0 }, [])

/-! ## Quantity parsing and nutrient rescaling (App helpers)

The App parses a leading amount out of free-text quantity strings with
three regular expressions, tried in order:
mixed fraction `(\d+)\s+(\d+)\/(\d+)`, simple fraction `(\d+)\/(\d+)`,
and decimal `(\d+(?:[.,]\d+)?)`.  JS `String.match` finds the leftmost
match; for these patterns greedy matching is equivalent to taking maximal
digit/space runs (shortening a greedy group always leaves a character of
the same class next, so backtracking never helps), which is how the
scanners below are written. -/

/-- Whitespace class of the `\s` regex escape (the characters that can
occur in these inputs). -/
def jsIsSpace (c : Char) : Bool :=
  decide (c = ' ' ∨ c = '\t' ∨ c = '\n' ∨ c = '\r' ∨ c = '\x0b' ∨ c = '\x0c')

/-- String.prototype.trim over the character list. -/
def jsTrim (l : List Char) : List Char :=
  ((l.dropWhile jsIsSpace).reverse.dropWhile jsIsSpace).reverse

/-- Numeric value of a decimal digit character. -/
def digitVal (c : Char) : Nat := c.toNat - 48

/-- Value of a digit run (JS `Number` on a digit string). -/
def digitsToNat (l : List Char) : Nat := l.foldl (fun a c => a * 10 + digitVal c) 0

/-- Decimal digits of a natural number, most significant first; the fuel
argument (any value above the digit count, `n + 1` at the call site) makes
the recursion structural so the definition evaluates inside the kernel. -/
def natToCharsFuel : Nat → Nat → List Char
  | 0, _ => []
  | fuel + 1, n =>
    if n < 10 then [Char.ofNat (48 + n)]
    else natToCharsFuel fuel (n / 10) ++ [Char.ofNat (48 + n % 10)]

/-- Decimal digits of a natural number, most significant first. -/
def natToChars (n : Nat) : List Char := natToCharsFuel (n + 1) n

/-- Match of `(\d+)\s+(\d+)\/(\d+)` anchored at the head of `l`. -/
def matchMixedAt (l : List Char) : Option (Nat × Nat × Nat) :=
  let d1 := l.takeWhile Char.isDigit
  let r1 := l.dropWhile Char.isDigit
  if d1.isEmpty then none
  else
    let w := r1.takeWhile jsIsSpace
    let r2 := r1.dropWhile jsIsSpace
    if w.isEmpty then none
    else
      let d2 := r2.takeWhile Char.isDigit
      let r3 := r2.dropWhile Char.isDigit
      if d2.isEmpty then none
      else
        match r3 with
        | '/' :: r4 =>
          let d3 := r4.takeWhile Char.isDigit
          if d3.isEmpty then none
          else some (digitsToNat d1, digitsToNat d2, digitsToNat d3)
        | _ => none

/-- Leftmost match of the mixed-fraction pattern. -/
def searchMixed : List Char → Option (Nat × Nat × Nat)
  | [] => none
  | c :: rest =>
    match matchMixedAt (c :: rest) with
    | some v => some v
    | none => searchMixed rest

/-- Match of `(\d+)\/(\d+)` anchored at the head of `l`. -/
def matchFracAt (l : List Char) : Option (Nat × Nat) :=
  let d1 := l.takeWhile Char.isDigit
  let r1 := l.dropWhile Char.isDigit
  if d1.isEmpty then none
  else
    match r1 with
    | '/' :: r2 =>
      let d2 := r2.takeWhile Char.isDigit
      if d2.isEmpty then none else some (digitsToNat d1, digitsToNat d2)
    | _ => none

/-- Leftmost match of the simple-fraction pattern. -/
def searchFrac : List Char → Option (Nat × Nat)
  | [] => none
  | c :: rest =>
    match matchFracAt (c :: rest) with
    | some v => some v
    | none => searchFrac rest

/-- Match of `(\d+(?:[.,]\d+)?)` anchored at the head of `l`, returning the
numeric value after the comma is read as a decimal point. -/
def matchDecAt (l : List Char) : Option ℚ :=
  let d1 := l.takeWhile Char.isDigit
  let r1 := l.dropWhile Char.isDigit
  if d1.isEmpty then none
  else
    match r1 with
    | sep :: r2 =>
      if sep = '.' ∨ sep = ',' then
        let f := r2.takeWhile Char.isDigit
        if f.isEmpty then some ((digitsToNat d1 : ℚ))
        else some (ratAdd (digitsToNat d1 : ℚ) (ratDiv (digitsToNat f : ℚ) ((10 ^ f.length : ℕ) : ℚ)))
      else some ((digitsToNat d1 : ℚ))
    | [] => some ((digitsToNat d1 : ℚ))

/-- Leftmost match of the decimal pattern. -/
def searchDec : List Char → Option ℚ
  | [] => none
  | c :: rest =>
    match matchDecAt (c :: rest) with
    | some v => some v
    | none => searchDec rest

/-- The App's `parseQuantityAmount`: trim and lowercase, then try the mixed
fraction (kept only when its denominator is positive), then the simple
fraction (likewise), then the decimal (kept only when positive). -/
def parseQuantityAmount (quantity : String) : Option ℚ :=
  let normalized := (jsTrim quantity.data).map Char.toLower
  if normalized.isEmpty then none
  else
    let mixed : Option ℚ :=
      match searchMixed normalized with
      | some (w, n, d) => if 0 < d then some (ratAdd (w : ℚ) (ratDiv (n : ℚ) (d : ℚ))) else none
      | none => none
    match mixed with
    | some v => some v
    | none =>
      let frac : Option ℚ :=
        match searchFrac normalized with
        | some (n, d) => if 0 < d then some (ratDiv (n : ℚ) (d : ℚ)) else none
        | none => none
      match frac with
      | some v => some v
      | none =>
        match searchDec normalized with
        | some v => if 0 < v then some v else none
        | none => none

/-- JS falsiness of a `number | null` (`null` and `0` are falsy). -/
def optFalsy : Option ℚ → Bool
  | none => true
  | some q => decide (q = 0)

/-- The App's `formatScaledNumber` as a character string: round to one
decimal; print an integer plainly, otherwise with one decimal digit. -/
def formatScaledNumber (v : ℚ) : List Char :=
  let n := jsRound (ratMul v 10)
  let m := n.natAbs
  let sign : List Char := if n < 0 then ['-'] else []
  if m % 10 = 0 then sign ++ natToChars (m / 10)
  else sign ++ natToChars (m / 10) ++ '.' :: natToChars (m % 10)

/-- The numeric token starting at a digit: its value (comma read as decimal
point, mirroring `Number(raw.replace(',', '.'))`) and the remainder of the
string after the token. -/
def numTokenAt (l : List Char) : ℚ × List Char :=
  let ds := l.takeWhile Char.isDigit
  let r1 := l.dropWhile Char.isDigit
  match r1 with
  | sep :: r2 =>
    if (sep = '.' ∨ sep = ',') ∧ ¬ (r2.takeWhile Char.isDigit).isEmpty then
      (ratAdd (digitsToNat ds : ℚ)
          (ratDiv (digitsToNat (r2.takeWhile Char.isDigit) : ℚ)
            ((10 ^ (r2.takeWhile Char.isDigit).length : ℕ) : ℚ)),
        r2.dropWhile Char.isDigit)
    else ((digitsToNat ds : ℚ), r1)
  | [] => ((digitsToNat ds : ℚ), [])

/-- The global replace `micronutrients.replace(/\d+(?:[.,]\d+)?/g, ...)`:
each maximal numeric token is parsed, scaled by the factor and re-formatted
with `formatScaledNumber`; all other characters pass through.  The fuel
argument (the list length at the call site, each step consuming at least
one character) makes the recursion structural so that the definition
evaluates inside the kernel. -/
def scaleMicroCharsFuel (factor : ℚ) : Nat → List Char → List Char
  | 0, _ => []
  | _, [] => []
  | fuel + 1, c :: rest =>
    if c.isDigit then
      formatScaledNumber (ratMul (numTokenAt (c :: rest)).1 factor) ++
        scaleMicroCharsFuel factor fuel (numTokenAt (c :: rest)).2
    else c :: scaleMicroCharsFuel factor fuel rest

def scaleMicroChars (factor : ℚ) (l : List Char) : List Char :=
  scaleMicroCharsFuel factor l.length l

/-- The App's `scaleMicronutrientsText` (undefined and empty strings pass
through unchanged). -/
def scaleMicronutrientsText (micronutrients : Option String) (factor : ℚ) : Option String :=
  match micronutrients with
  | none => none
  | some s => if s = "" then some s else some ⟨scaleMicroChars factor s.data⟩

/-- The App's `scaleFoodNutrition`: guard the factor to a positive finite
value; round calories to an integer; round the other macros to one decimal
place (`Number(formatScaledNumber(x))`, which for these exact one-decimal
values equals `roundTo1 x`); floor everything at zero; rescale the numeric
tokens in the micronutrients text. -/
def scaleFoodNutrition (item : FoodItem) (factor : ℚ) : FoodItem :=
  let safeFactor := if 0 < factor then factor else 1
  { item with
    calories := max 0 ((jsRound (ratMul item.calories safeFactor) : ℚ)),
    protein := max 0 (roundTo1 (ratMul item.protein safeFactor)),
    carbs := max 0 (roundTo1 (ratMul item.carbs safeFactor)),
    fat := max 0 (roundTo1 (ratMul item.fat safeFactor)),
    fiber := max 0 (roundTo1 (ratMul item.fiber safeFactor)),
    micronutrients := scaleMicronutrientsText item.micronutrients safeFactor }

/-- The per-item body of `editItemQuantity`: when either the current or the
new quantity fails to parse to a truthy amount, only the quantity text
changes; otherwise the nutrition is rescaled by `newAmount / oldAmount` and
the quantity text is replaced. -/
def editItemQuantityItem (item : FoodItem) (quantity : String) : FoodItem :=
  let previousAmount := parseQuantityAmount item.quantity
  let nextAmount := parseQuantityAmount quantity
  if optFalsy previousAmount || optFalsy nextAmount then
    { item with quantity := quantity }
  else
    let factor := ratDiv (nextAmount.getD 0) (previousAmount.getD 0)
    { scaleFoodNutrition item factor with quantity := quantity }

/-- `editItemQuantity` over the items collection: only the item with the
given id is transformed. -/
def editItemQuantityList (items : List FoodItem) (itemId : String) (q : String) :
    List FoodItem :=
  items.map (fun it => if it.id = itemId then editItemQuantityItem it q else it)

/-! ## Theorems -/

theorem num_cast_eq (a : ℚ) : (a.num : ℚ) = a * a.den := by
  have hd : ((a.den : ℚ)) ≠ 0 := by exact_mod_cast a.den_nz
  have h := Rat.num_div_den a
  calc (a.num : ℚ) = ((a.num : ℚ) / a.den) * a.den := by field_simp
    _ = a * a.den := by rw [h]

theorem ratAdd_eq (a b : ℚ) : ratAdd a b = a + b := by
  unfold ratAdd
  rw [Rat.divInt_eq_div]
  have hda : ((a.den : ℚ)) ≠ 0 := by exact_mod_cast a.den_nz
  have hdb : ((b.den : ℚ)) ≠ 0 := by exact_mod_cast b.den_nz
  push_cast
  rw [div_eq_iff (mul_ne_zero hda hdb), num_cast_eq a, num_cast_eq b]
  ring

theorem ratMul_eq (a b : ℚ) : ratMul a b = a * b := by
  unfold ratMul
  rw [Rat.divInt_eq_div]
  have hda : ((a.den : ℚ)) ≠ 0 := by exact_mod_cast a.den_nz
  have hdb : ((b.den : ℚ)) ≠ 0 := by exact_mod_cast b.den_nz
  push_cast
  rw [div_eq_iff (mul_ne_zero hda hdb), num_cast_eq a, num_cast_eq b]
  ring

theorem ratDiv_eq (a b : ℚ) : ratDiv a b = a / b := by
  unfold ratDiv
  by_cases hb : b = 0
  · subst hb
    simp
  · rw [Rat.divInt_eq_div]
    have hda : ((a.den : ℚ)) ≠ 0 := by exact_mod_cast a.den_nz
    have hdb : ((b.den : ℚ)) ≠ 0 := by exact_mod_cast b.den_nz
    have hnb : ((b.num : ℚ)) ≠ 0 := by
      rw [num_cast_eq b]
      exact mul_ne_zero hb hdb
    push_cast
    rw [div_eq_div_iff (mul_ne_zero hda hnb) hb, num_cast_eq a, num_cast_eq b]
    ring

theorem jsRound_eq (q : ℚ) : jsRound q = ⌊q + 1/2⌋ := by
  unfold jsRound
  rw [ratAdd_eq]
  norm_num [Rat.mkRat_eq_div]

theorem roundTo1_eq (q : ℚ) : roundTo1 q = (⌊q * 10 + 1/2⌋ : ℚ) / 10 := by
  unfold roundTo1
  rw [Rat.divInt_eq_div, jsRound_eq, ratMul_eq]
  norm_num

theorem int16OfInt_eq_self {n : ℤ} (h1 : -32768 ≤ n) (h2 : n ≤ 32767) :
    int16OfInt n = n := by
  unfold int16OfInt
  have h3 : (0 : ℤ) ≤ n + 2 ^ 15 := by omega
  have h4 : n + 2 ^ 15 < 2 ^ 16 := by omega
  rw [Int.emod_eq_of_lt h3 h4]
  omega

theorem jsTrunc_mul_nonneg_range {q : ℚ} (h1 : 0 ≤ q) (h2 : q ≤ 1) :
    0 ≤ jsTrunc (q * 32767) ∧ jsTrunc (q * 32767) ≤ 32767 := by
  unfold jsTrunc
  have hx : (0 : ℚ) ≤ q * 32767 := by positivity
  rw [if_pos hx]
  refine ⟨Int.floor_nonneg.mpr hx, ?_⟩
  have hle : q * 32767 ≤ 32767 := by nlinarith
  calc ⌊q * 32767⌋ ≤ ⌊(32767 : ℚ)⌋ := Int.floor_le_floor hle
    _ = 32767 := by norm_num

theorem jsTrunc_mul_neg_range {q : ℚ} (h1 : -1 ≤ q) (h2 : q < 0) :
    -32768 ≤ jsTrunc (q * 32768) ∧ jsTrunc (q * 32768) ≤ 0 := by
  unfold jsTrunc
  have hx : q * 32768 < 0 := by nlinarith
  rw [if_neg (not_le.mpr hx)]
  have hnx : (0 : ℚ) ≤ -(q * 32768) := by linarith
  have hle : -(q * 32768) ≤ 32768 := by nlinarith
  have hup : ⌊-(q * 32768)⌋ ≤ 32768 := by
    calc ⌊-(q * 32768)⌋ ≤ ⌊(32768 : ℚ)⌋ := Int.floor_le_floor hle
      _ = 32768 := by norm_num
  have hlo : 0 ≤ ⌊-(q * 32768)⌋ := Int.floor_nonneg.mpr hnx
  omega

theorem pcm16Sample_fin_inrange {q : ℚ} (h1 : -1 ≤ q) (h2 : q ≤ 1) :
    pcm16Sample (.fin q) = if q < 0 then jsTrunc (q * 32768) else jsTrunc (q * 32767) := by
  unfold pcm16Sample
  have hmin : jsMin (.fin 1) (.fin q) = .fin q := by
    simp [jsMin, min_eq_right h2]
  have hmax : jsMax (.fin (-1)) (.fin q) = .fin q := by
    simp [jsMax, max_eq_right h1]
  rw [hmin, hmax]
  by_cases hq : q < 0
  · rw [if_pos hq]
    have hb := jsTrunc_mul_neg_range h1 hq
    have hlt : jsLtZero (.fin q) = true := by simp [jsLtZero, hq]
    simp only [hlt, if_true, jsMulConst, toInt16, ratMul_eq]
    exact int16OfInt_eq_self hb.1 (by omega)
  · rw [if_neg hq]
    have hb := jsTrunc_mul_nonneg_range (not_lt.mp hq) h2
    have hlt : jsLtZero (.fin q) = false := by simp [jsLtZero, hq]
    simp only [hlt, if_false, jsMulConst, toInt16, ratMul_eq, Bool.false_eq_true]
    exact int16OfInt_eq_self (by omega) hb.2

theorem pcm16Sample_clamp_hi {q : ℚ} (h : 1 < q) : pcm16Sample (.fin q) = 32767 := by
  unfold pcm16Sample
  have hmin : jsMin (.fin 1) (.fin q) = .fin 1 := by
    simp [jsMin, min_eq_left h.le]
  have hmax : jsMax (.fin (-1)) (.fin 1) = .fin 1 := by decide
  rw [hmin, hmax]
  decide

theorem pcm16Sample_clamp_lo {q : ℚ} (h : q < -1) : pcm16Sample (.fin q) = -32768 := by
  unfold pcm16Sample
  have hmin : jsMin (.fin 1) (.fin q) = .fin q := by
    simp [jsMin, min_eq_right (by linarith : q ≤ 1)]
  have hmax : jsMax (.fin (-1)) (.fin q) = .fin (-1) := by
    simp [jsMax, max_eq_left h.le]
  rw [hmin, hmax]
  decide

theorem pcm16Sample_range (x : JSNum) :
    -32768 ≤ pcm16Sample x ∧ pcm16Sample x ≤ 32767 := by
  cases x with
  | fin q =>
    by_cases hlo : q < -1
    · rw [pcm16Sample_clamp_lo hlo]; omega
    · by_cases hhi : 1 < q
      · rw [pcm16Sample_clamp_hi hhi]; omega
      · rw [pcm16Sample_fin_inrange (not_lt.mp hlo) (not_lt.mp hhi)]
        by_cases hq : q < 0
        · rw [if_pos hq]
          have hb := jsTrunc_mul_neg_range (not_lt.mp hlo) hq
          omega
        · rw [if_neg hq]
          have hb := jsTrunc_mul_nonneg_range (not_lt.mp hq) (not_lt.mp hhi)
          omega
  | nan => decide
  | inf => decide
  | ninf => decide

/-- C8: `float32ToPCM16` is a total element-wise map; each sample is
clamped to [-1, 1], scaled by 32767 when non-negative and 32768 when
negative, and truncated to a signed 16-bit integer; non-finite samples are
clamped (±∞) or coerced to 0 (NaN) rather than rejected, so every output
lies in the int16 range. -/
theorem claim_C8_float_to_pcm16 (xs : List JSNum) :
    float32ToPCM16 xs = xs.map pcm16Sample
    ∧ (float32ToPCM16 xs).length = xs.length
    ∧ (∀ y ∈ float32ToPCM16 xs, -32768 ≤ y ∧ y ≤ 32767)
    ∧ (∀ q : ℚ, -1 ≤ q → q ≤ 1 →
        pcm16Sample (.fin q) = if q < 0 then jsTrunc (q * 32768) else jsTrunc (q * 32767))
    ∧ (∀ q : ℚ, 1 < q → pcm16Sample (.fin q) = 32767)
    ∧ (∀ q : ℚ, q < -1 → pcm16Sample (.fin q) = -32768)
    ∧ pcm16Sample .inf = 32767
    ∧ pcm16Sample .ninf = -32768
    ∧ pcm16Sample .nan = 0 := by
  refine ⟨rfl, by simp [float32ToPCM16], ?_, ?_, ?_, ?_, by decide, by decide, by decide⟩
  · intro y hy
    rcases List.mem_map.mp hy with ⟨x, _, hx⟩
    rw [← hx]
    exact pcm16Sample_range x
  · intro q h1 h2
    exact pcm16Sample_fin_inrange h1 h2
  · intro q h
    exact pcm16Sample_clamp_hi h
  · intro q h
    exact pcm16Sample_clamp_lo h

/-- C8 witness: the general facts instantiated at concrete samples. -/
theorem claim_C8_float_to_pcm16_witness :
    pcm16Sample (.fin (mkRat 1 2)) = 16383
    ∧ pcm16Sample (.fin 2) = 32767
    ∧ pcm16Sample .nan = 0
    ∧ float32ToPCM16 [.fin (mkRat 1 2), .nan, .inf] = [16383, 0, 32767] := by
  have h := claim_C8_float_to_pcm16 [JSNum.fin (mkRat 1 2), JSNum.nan, JSNum.inf]
  have h1 : pcm16Sample (.fin (mkRat 1 2)) =
      if (mkRat 1 2 : ℚ) < 0 then jsTrunc (mkRat 1 2 * 32768) else jsTrunc (mkRat 1 2 * 32767) :=
    h.2.2.2.1 (mkRat 1 2) (by decide) (by decide)
  have h2 : pcm16Sample (.fin (mkRat 1 2)) = 16383 := by
    rw [h1, if_neg (by decide),
      show (mkRat 1 2 : ℚ) * 32767 = ratMul (mkRat 1 2) 32767 from (ratMul_eq _ _).symm]
    decide
  have h3 : pcm16Sample (.fin 2) = 32767 := h.2.2.2.2.1 2 (by decide)
  refine ⟨h2, h3, h.2.2.2.2.2.2.2.2, ?_⟩
  rw [h.1]
  simp only [List.map]
  rw [h2]
  decide

theorem samplesBytes_length (l : List ℤ) : (samplesBytes l).length = 2 * l.length := by
  induction l with
  | nil => rfl
  | cons s t ih =>
    simp only [samplesBytes, i16le, u16le, List.length_append, List.length_cons, ih]
    simp
    omega

theorem concatChunks_length (chunks : List (List ℤ)) :
    (concatChunks chunks).length = (chunks.map List.length).sum := by
  induction chunks with
  | nil => rfl
  | cons c t ih => simp [concatChunks, ih]

theorem wavHeader_length (d : Nat) : (wavHeader d).length = 44 := by
  simp [wavHeader, u16le, u32le]

set_option maxHeartbeats 2000000 in
/-- C9: WAV framing of int16 chunks yields `44 + 2 * totalSampleCount`
bytes, bytes 0-3 "RIFF" and 8-11 "WAVE", a header declaring PCM format
tag 1, one channel, 16000 Hz and 16 bits per sample, and then the
concatenated little-endian sample bytes. -/
theorem claim_C9_wav_framing (chunks : List (List ℤ)) :
    (buildWavBlob chunks).length = 44 + 2 * (chunks.map List.length).sum
    ∧ (buildWavBlob chunks).take 4 = [82, 73, 70, 70]
    ∧ ((buildWavBlob chunks).drop 8).take 4 = [87, 65, 86, 69]
    ∧ ((buildWavBlob chunks).drop 20).take 2 = [1, 0]
    ∧ ((buildWavBlob chunks).drop 22).take 2 = [1, 0]
    ∧ ((buildWavBlob chunks).drop 24).take 4 = [128, 62, 0, 0]
    ∧ ((buildWavBlob chunks).drop 34).take 2 = [16, 0]
    ∧ (buildWavBlob chunks).drop 44 = samplesBytes (concatChunks chunks)
    ∧ (∀ s : ℤ, i16le s = [(s % 2 ^ 16).toNat % 256, (s % 2 ^ 16).toNat / 256 % 256]) := by
  refine ⟨?_, rfl, rfl, rfl, rfl, rfl, rfl, rfl, fun s => rfl⟩
  show (wavHeader _ ++ samplesBytes (concatChunks chunks)).length = _
  rw [List.length_append, wavHeader_length, samplesBytes_length, concatChunks_length]

theorem getLast?_cons_match (t : String) (l : List String) :
    (t :: l).getLast? =
      match l.getLast? with
      | some u => some u
      | none => some t := by
  induction l generalizing t with
  | nil => rfl
  | cons b l2 ih =>
    rw [List.getLast?_cons_cons, ih b]
    cases hl : l2.getLast? <;> simp [ih]

theorem partFood_none_iff (p : Part) : partFood p = none ↔ carriesLogFood p = false := by
  unfold partFood carriesLogFood
  cases hc : p.call with
  | none => simp
  | some fc =>
    by_cases hn : fc.name = "log_food" <;> simp [hn]

theorem normalizeParts_snd (parts : List Part) (tr : Option String) (acc : List FoodOut) :
    (normalizeParts parts tr acc).2 = acc ++ parts.filterMap partFood := by
  induction parts generalizing tr acc with
  | nil => simp [normalizeParts]
  | cons p rest ih =>
    simp only [normalizeParts]
    rw [ih]
    cases hc : p.call with
    | none => simp [partFood, hc, List.filterMap_cons]
    | some fc =>
      by_cases hn : fc.name = "log_food" <;>
        simp [partFood, hc, hn, List.filterMap_cons]

theorem normalizeParts_fst (parts : List Part) (tr : Option String) (acc : List FoodOut) :
    (normalizeParts parts tr acc).1 =
      match (parts.filterMap partText).getLast? with
      | some t => some t
      | none => tr := by
  induction parts generalizing tr acc with
  | nil => simp [normalizeParts]
  | cons p rest ih =>
    simp only [normalizeParts]
    rw [ih]
    cases hpt : partText p with
    | none =>
      have htr : (match p.text with
          | some t => if t = "" then tr else some t
          | none => tr) = tr := by
        unfold partText at hpt
        cases hx : p.text with
        | none => rfl
        | some t2 =>
          rw [hx] at hpt
          by_cases h2 : t2 = ""
          · simp [h2]
          · simp [h2] at hpt
      rw [htr, List.filterMap_cons, hpt]
    | some t =>
      have htr : (match p.text with
          | some u => if u = "" then tr else some u
          | none => tr) = some t := by
        unfold partText at hpt
        cases hx : p.text with
        | none => rw [hx] at hpt; exact absurd hpt (by simp)
        | some t2 =>
          rw [hx] at hpt
          by_cases h2 : t2 = ""
          · simp [h2] at hpt
          · simp [h2] at hpt ⊢
            exact hpt
      rw [htr, List.filterMap_cons, hpt, getLast?_cons_match]
      cases hl : (rest.filterMap partText).getLast? <;> simp

/-- C2: the endpoint's normalization emits exactly one FoodEntry per part
carrying a `log_food` function call, in part order, defaulting a missing
fiber to 0 and missing micronutrients to ""; the transcription is the text
of the last nonempty plain-text part (null when there is none); zero tool
calls give an empty foods list; and a successful upstream response always
yields an HTTP 200 success carrying exactly these values. -/
theorem claim_C2_response_normalization :
    (∀ parts : List Part,
      (normalizeResponse parts).2 = parts.filterMap partFood
      ∧ (normalizeResponse parts).1 = (parts.filterMap partText).getLast?
      ∧ ((∀ p ∈ parts, carriesLogFood p = false) → (normalizeResponse parts).2 = []))
    ∧ (∀ (p : Part) (fc : FnCall), p.call = some fc →
        partFood p = if fc.name = "log_food" then some (foodOfArgs fc.args) else none)
    ∧ (∀ a : FoodArgs, (foodOfArgs a).fiber = a.fiber.getD 0
        ∧ (foodOfArgs a).micronutrients = a.micronutrients.getD ""
        ∧ (foodOfArgs a).name = a.name ∧ (foodOfArgs a).quantity = a.quantity
        ∧ (foodOfArgs a).calories = a.calories ∧ (foodOfArgs a).protein = a.protein
        ∧ (foodOfArgs a).carbs = a.carbs ∧ (foodOfArgs a).fat = a.fat)
    ∧ (∀ a : FoodArgs, a.fiber = none → (foodOfArgs a).fiber = 0)
    ∧ (∀ a : FoodArgs, a.micronutrients = none → (foodOfArgs a).micronutrients = "")
    ∧ (∀ (apiKey : Option String) (req : Req) (respAt : Nat → UpResp) (s : String),
        req.method = "POST" → apiKeyTruthy apiKey = true →
        audioField req.body = some s → ¬ (base64Decode s).length < 1000 →
        (fetchLoop respAt).final.ok = true →
        handler apiKey req respAt =
          ⟨.success (normalizeResponse (fetchLoop respAt).final.parts).1
              (normalizeResponse (fetchLoop respAt).final.parts).2,
            (fetchLoop respAt).attempts, (fetchLoop respAt).delays,
            some (pcmToWav (base64Decode s))⟩) := by
  refine ⟨?_, ?_, ?_, ?_, ?_, ?_⟩
  · intro parts
    refine ⟨normalizeParts_snd parts none [], ?_, ?_⟩
    · rw [show (normalizeResponse parts).1 = (normalizeParts parts none []).1 from rfl]
      rw [normalizeParts_fst]
      cases hl : (parts.filterMap partText).getLast? <;> simp
    · intro hall
      rw [show (normalizeResponse parts).2 = (normalizeParts parts none []).2 from rfl]
      rw [normalizeParts_snd]
      have : parts.filterMap partFood = [] :=
        List.filterMap_eq_nil.mpr (fun p hp => (partFood_none_iff p).mpr (hall p hp))
      simp [this]
  · intro p fc hc
    unfold partFood
    rw [hc]
  · intro a
    exact ⟨rfl, rfl, rfl, rfl, rfl, rfl, rfl, rfl⟩
  · intro a ha
    simp [foodOfArgs, ha]
  · intro a ha
    simp [foodOfArgs, ha]
  · intro apiKey req respAt s hm hk ha hl hok
    unfold handler
    rw [if_neg (by simp [hm]), if_neg (by simp [hk]), ha]
    simp only [if_neg hl, hok, if_true]

/-- C2 witness: a response with two `log_food` calls (one under each wire
spelling, one with fiber/micronutrients missing) yields exactly two
entries in order with the defaults applied, and the last text part wins. -/
theorem claim_C2_response_normalization_witness :
    normalizeResponse
        [⟨some ("t1"), some ⟨"log_food", { name := some ("banana"), fiber := none }⟩, none⟩,
         ⟨some ("t2"), none, some ⟨"log_food", { name := some ("egg"), fiber := some 1 }⟩⟩,
         ⟨none, some ⟨"other_tool", {}⟩, none⟩] =
      (some ("t2"),
        [⟨some ("banana"), none, none, none, none, none, 0, ""⟩,
         ⟨some ("egg"), none, none, none, none, none, 1, ""⟩])
    ∧ normalizeResponse [⟨some ("just talk"), none, none⟩] = (some ("just talk"), []) := by
  have h1 := (claim_C2_response_normalization.1
    [⟨some ("t1"), some ⟨"log_food", { name := some ("banana"), fiber := none }⟩, none⟩,
     ⟨some ("t2"), none, some ⟨"log_food", { name := some ("egg"), fiber := some 1 }⟩⟩,
     ⟨none, some ⟨"other_tool", {}⟩, none⟩])
  have h2 := (claim_C2_response_normalization.1 [⟨some ("just talk"), none, none⟩])
  constructor
  · have ha := h1.1
    have hb := h1.2.1
    refine Prod.ext ?_ ?_
    · rw [hb]; decide
    · rw [ha]; decide
  · have ha := h2.1
    have hb := h2.2.1
    refine Prod.ext ?_ ?_
    · rw [hb]; decide
    · rw [ha]; decide

theorem fetchLoopFrom_ok {respAt : Nat → UpResp} {a : Nat} {e : String} {d : List Nat}
    (h : (respAt a).ok = true) :
    fetchLoopFrom respAt a e d = ⟨a + 1, respAt a, e, d⟩ := by
  unfold fetchLoopFrom
  simp [h]

theorem fetchLoopFrom_stop {respAt : Nat → UpResp} {a : Nat} {e : String} {d : List Nat}
    (h : (respAt a).ok = false)
    (h2 : ¬ (((respAt a).status = 503 ∨ (respAt a).status = 429) ∧ a < maxRetries)) :
    fetchLoopFrom respAt a e d = ⟨a + 1, respAt a, (respAt a).body, d⟩ := by
  unfold fetchLoopFrom
  simp [h, h2]

theorem fetchLoopFrom_retry {respAt : Nat → UpResp} {a : Nat} {e : String} {d : List Nat}
    (h : (respAt a).ok = false)
    (hr : (respAt a).status = 503 ∨ (respAt a).status = 429) (ha : a < maxRetries) :
    fetchLoopFrom respAt a e d =
      fetchLoopFrom respAt (a + 1) (respAt a).body (d ++ [retryDelayMs]) := by
  conv_lhs => rw [fetchLoopFrom]
  simp [h, hr, ha]

theorem fetchLoop_case_ok0 {respAt : Nat → UpResp} (h : (respAt 0).ok = true) :
    fetchLoop respAt = ⟨1, respAt 0, "", []⟩ :=
  fetchLoopFrom_ok h

theorem fetchLoop_case_stop0 {respAt : Nat → UpResp} (h : (respAt 0).ok = false)
    (hnr : ¬ ((respAt 0).status = 503 ∨ (respAt 0).status = 429)) :
    fetchLoop respAt = ⟨1, respAt 0, (respAt 0).body, []⟩ :=
  fetchLoopFrom_stop h (by simp [hnr])

theorem fetchLoop_case_ok1 {respAt : Nat → UpResp} (h0 : (respAt 0).ok = false)
    (hr0 : (respAt 0).status = 503 ∨ (respAt 0).status = 429)
    (h1 : (respAt 1).ok = true) :
    fetchLoop respAt = ⟨2, respAt 1, (respAt 0).body, [retryDelayMs]⟩ := by
  unfold fetchLoop
  rw [fetchLoopFrom_retry h0 hr0 (by decide), fetchLoopFrom_ok h1]
  rfl

theorem fetchLoop_case_stop1 {respAt : Nat → UpResp} (h0 : (respAt 0).ok = false)
    (hr0 : (respAt 0).status = 503 ∨ (respAt 0).status = 429)
    (h1 : (respAt 1).ok = false)
    (hnr1 : ¬ ((respAt 1).status = 503 ∨ (respAt 1).status = 429)) :
    fetchLoop respAt = ⟨2, respAt 1, (respAt 1).body, [retryDelayMs]⟩ := by
  unfold fetchLoop
  rw [fetchLoopFrom_retry h0 hr0 (by decide), fetchLoopFrom_stop h1 (by simp [hnr1])]
  rfl

theorem fetchLoop_case_ok2 {respAt : Nat → UpResp} (h0 : (respAt 0).ok = false)
    (hr0 : (respAt 0).status = 503 ∨ (respAt 0).status = 429)
    (h1 : (respAt 1).ok = false)
    (hr1 : (respAt 1).status = 503 ∨ (respAt 1).status = 429)
    (h2 : (respAt 2).ok = true) :
    fetchLoop respAt = ⟨3, respAt 2, (respAt 1).body, [retryDelayMs, retryDelayMs]⟩ := by
  unfold fetchLoop
  rw [fetchLoopFrom_retry h0 hr0 (by decide), fetchLoopFrom_retry h1 hr1 (by decide),
    fetchLoopFrom_ok h2]
  rfl

theorem fetchLoop_case_stop2 {respAt : Nat → UpResp} (h0 : (respAt 0).ok = false)
    (hr0 : (respAt 0).status = 503 ∨ (respAt 0).status = 429)
    (h1 : (respAt 1).ok = false)
    (hr1 : (respAt 1).status = 503 ∨ (respAt 1).status = 429)
    (h2 : (respAt 2).ok = false) :
    fetchLoop respAt = ⟨3, respAt 2, (respAt 2).body, [retryDelayMs, retryDelayMs]⟩ := by
  unfold fetchLoop
  rw [fetchLoopFrom_retry h0 hr0 (by decide), fetchLoopFrom_retry h1 hr1 (by decide),
    fetchLoopFrom_stop h2 (by simp [maxRetries])]
  rfl

theorem handler_valid_eq {apiKey : Option String} {req : Req} {respAt : Nat → UpResp}
    {s : String}
    (hm : req.method = "POST") (hk : apiKeyTruthy apiKey = true)
    (ha : audioField req.body = some s) (hl : ¬ (base64Decode s).length < 1000) :
    handler apiKey req respAt =
      if (fetchLoop respAt).final.ok then
        ⟨.success (normalizeResponse (fetchLoop respAt).final.parts).1
            (normalizeResponse (fetchLoop respAt).final.parts).2,
          (fetchLoop respAt).attempts, (fetchLoop respAt).delays,
          some (pcmToWav (base64Decode s))⟩
      else if (fetchLoop respAt).final.status = 429 then
        ⟨.failure 429 "Quota exceeded"
          (some ("Gemini rate limit reached. Wait a minute or check your plan at ai.google.dev.")),
          (fetchLoop respAt).attempts, (fetchLoop respAt).delays,
          some (pcmToWav (base64Decode s))⟩
      else if (fetchLoop respAt).final.status = 503 then
        ⟨.failure 503 "Model overloaded" (some ("Gemini is busy. Try again in a moment.")),
          (fetchLoop respAt).attempts, (fetchLoop respAt).delays,
          some (pcmToWav (base64Decode s))⟩
      else
        ⟨.failure 502
            (if (fetchLoop respAt).final.status = 401 then ("Invalid API key")
              else ("Upstream API error"))
            (some ⟨(fetchLoop respAt).errText.data.take 200⟩),
          (fetchLoop respAt).attempts, (fetchLoop respAt).delays,
          some (pcmToWav (base64Decode s))⟩ := by
  unfold handler
  rw [if_neg (by simp [hm]), if_neg (by simp [hk]), ha]
  simp only [if_neg hl]

theorem strTake200_length_le (l : List Char) : (String.mk (l.take 200)).length ≤ 200 := by
  show (l.take 200).length ≤ 200
  rw [List.length_take]
  exact min_le_left _ _

theorem notOk_of_status {r : UpResp} {n : Nat} (hst : r.status = n)
    (hn : ¬ (200 ≤ n ∧ n < 300)) : r.ok = false := by
  simp [UpResp.ok, hst, hn]

theorem handler_valid_proj {apiKey : Option String} {req : Req} {respAt : Nat → UpResp}
    {s : String}
    (hm : req.method = "POST") (hk : apiKeyTruthy apiKey = true)
    (ha : audioField req.body = some s) (hl : ¬ (base64Decode s).length < 1000) :
    (handler apiKey req respAt).upstreamCalls = (fetchLoop respAt).attempts
    ∧ (handler apiKey req respAt).delays = (fetchLoop respAt).delays
    ∧ (handler apiKey req respAt).wavPayload = some (pcmToWav (base64Decode s)) := by
  rw [handler_valid_eq hm hk ha hl]
  refine ⟨?_, ?_, ?_⟩ <;> (repeat' split) <;> rfl

theorem handler_resp_ok {apiKey : Option String} {req : Req} {respAt : Nat → UpResp}
    {s : String}
    (hm : req.method = "POST") (hk : apiKeyTruthy apiKey = true)
    (ha : audioField req.body = some s) (hl : ¬ (base64Decode s).length < 1000)
    (hok : (fetchLoop respAt).final.ok = true) :
    (handler apiKey req respAt).resp =
      .success (normalizeResponse (fetchLoop respAt).final.parts).1
        (normalizeResponse (fetchLoop respAt).final.parts).2 := by
  rw [handler_valid_eq hm hk ha hl, if_pos hok]

theorem handler_resp_429 {apiKey : Option String} {req : Req} {respAt : Nat → UpResp}
    {s : String}
    (hm : req.method = "POST") (hk : apiKeyTruthy apiKey = true)
    (ha : audioField req.body = some s) (hl : ¬ (base64Decode s).length < 1000)
    (hok : (fetchLoop respAt).final.ok = false)
    (hst : (fetchLoop respAt).final.status = 429) :
    (handler apiKey req respAt).resp =
      .failure 429 "Quota exceeded"
        (some ("Gemini rate limit reached. Wait a minute or check your plan at ai.google.dev.")) := by
  rw [handler_valid_eq hm hk ha hl, if_neg (by simp [hok]), if_pos hst]

theorem handler_resp_503 {apiKey : Option String} {req : Req} {respAt : Nat → UpResp}
    {s : String}
    (hm : req.method = "POST") (hk : apiKeyTruthy apiKey = true)
    (ha : audioField req.body = some s) (hl : ¬ (base64Decode s).length < 1000)
    (hok : (fetchLoop respAt).final.ok = false)
    (hst : (fetchLoop respAt).final.status = 503) :
    (handler apiKey req respAt).resp =
      .failure 503 "Model overloaded" (some ("Gemini is busy. Try again in a moment.")) := by
  rw [handler_valid_eq hm hk ha hl, if_neg (by simp [hok]), if_neg (by simp [hst]),
    if_pos hst]

theorem handler_resp_other {apiKey : Option String} {req : Req} {respAt : Nat → UpResp}
    {s : String}
    (hm : req.method = "POST") (hk : apiKeyTruthy apiKey = true)
    (ha : audioField req.body = some s) (hl : ¬ (base64Decode s).length < 1000)
    (hok : (fetchLoop respAt).final.ok = false)
    (h429 : (fetchLoop respAt).final.status ≠ 429)
    (h503 : (fetchLoop respAt).final.status ≠ 503) :
    (handler apiKey req respAt).resp =
      .failure 502
        (if (fetchLoop respAt).final.status = 401 then ("Invalid API key")
          else ("Upstream API error"))
        (some ⟨(fetchLoop respAt).errText.data.take 200⟩) := by
  rw [handler_valid_eq hm hk ha hl, if_neg (by simp [hok]), if_neg h429, if_neg h503]

theorem handler_details_bound {apiKey : Option String} {req : Req} {respAt : Nat → UpResp}
    {s : String}
    (hm : req.method = "POST") (hk : apiKeyTruthy apiKey = true)
    (ha : audioField req.body = some s) (hl : ¬ (base64Decode s).length < 1000) :
    ∀ st er dt, (handler apiKey req respAt).resp = .failure st er (some dt) →
      dt.length ≤ 200 := by
  intro st er dt h
  by_cases hok : (fetchLoop respAt).final.ok = true
  · rw [handler_resp_ok hm hk ha hl hok] at h
    exact absurd h (by simp)
  · replace hok : (fetchLoop respAt).final.ok = false := by
      cases hx : (fetchLoop respAt).final.ok
      · rfl
      · exact absurd hx hok
    by_cases h429 : (fetchLoop respAt).final.status = 429
    · rw [handler_resp_429 hm hk ha hl hok h429] at h
      simp only [HandlerResp.failure.injEq, Option.some.injEq] at h
      rw [← h.2.2]
      decide
    · by_cases h503 : (fetchLoop respAt).final.status = 503
      · rw [handler_resp_503 hm hk ha hl hok h503] at h
        simp only [HandlerResp.failure.injEq, Option.some.injEq] at h
        rw [← h.2.2]
        decide
      · rw [handler_resp_other hm hk ha hl hok h429 h503] at h
        simp only [HandlerResp.failure.injEq, Option.some.injEq] at h
        rw [← h.2.2]
        exact strTake200_length_le _

theorem fetchLoop_shape (respAt : Nat → UpResp) :
    (1 ≤ (fetchLoop respAt).attempts ∧ (fetchLoop respAt).attempts ≤ 3)
    ∧ (∀ i, i + 1 < (fetchLoop respAt).attempts →
        (respAt i).ok = false ∧ ((respAt i).status = 429 ∨ (respAt i).status = 503))
    ∧ (fetchLoop respAt).delays = List.replicate ((fetchLoop respAt).attempts - 1) 2000
    ∧ (fetchLoop respAt).final = respAt ((fetchLoop respAt).attempts - 1)
    ∧ ((respAt 0).ok = true → (fetchLoop respAt).attempts = 1) := by
  by_cases h0 : (respAt 0).ok = true
  · rw [fetchLoop_case_ok0 h0]
    exact ⟨show 1 ≤ 1 ∧ 1 ≤ 3 by omega,
      fun i hi => absurd hi (show ¬ (i + 1 < 1) by omega), by simp, rfl, fun _ => rfl⟩
  · replace h0 : (respAt 0).ok = false := by
      cases hx : (respAt 0).ok
      · rfl
      · exact absurd hx h0
    have hok0 : ¬ (respAt 0).ok = true := by simp [h0]
    by_cases hr0 : (respAt 0).status = 503 ∨ (respAt 0).status = 429
    · by_cases h1 : (respAt 1).ok = true
      · rw [fetchLoop_case_ok1 h0 hr0 h1]
        refine ⟨show 1 ≤ 2 ∧ 2 ≤ 3 by omega, ?_, by simp [retryDelayMs], rfl,
          fun hx => absurd hx hok0⟩
        intro i hi
        have hb : i + 1 < 2 := hi
        have hz : i = 0 := by omega
        subst hz
        exact ⟨h0, hr0.symm⟩
      · replace h1 : (respAt 1).ok = false := by
          cases hx : (respAt 1).ok
          · rfl
          · exact absurd hx h1
        by_cases hr1 : (respAt 1).status = 503 ∨ (respAt 1).status = 429
        · by_cases h2 : (respAt 2).ok = true
          · rw [fetchLoop_case_ok2 h0 hr0 h1 hr1 h2]
            refine ⟨show 1 ≤ 3 ∧ 3 ≤ 3 by omega, ?_, by simp [retryDelayMs], rfl,
              fun hx => absurd hx hok0⟩
            intro i hi
            have hb : i + 1 < 3 := hi
            have hz : i = 0 ∨ i = 1 := by omega
            rcases hz with hz | hz <;> subst hz
            · exact ⟨h0, hr0.symm⟩
            · exact ⟨h1, hr1.symm⟩
          · replace h2 : (respAt 2).ok = false := by
              cases hx : (respAt 2).ok
              · rfl
              · exact absurd hx h2
            rw [fetchLoop_case_stop2 h0 hr0 h1 hr1 h2]
            refine ⟨show 1 ≤ 3 ∧ 3 ≤ 3 by omega, ?_, by simp [retryDelayMs], rfl,
              fun hx => absurd hx hok0⟩
            intro i hi
            have hb : i + 1 < 3 := hi
            have hz : i = 0 ∨ i = 1 := by omega
            rcases hz with hz | hz <;> subst hz
            · exact ⟨h0, hr0.symm⟩
            · exact ⟨h1, hr1.symm⟩
        · rw [fetchLoop_case_stop1 h0 hr0 h1 hr1]
          refine ⟨show 1 ≤ 2 ∧ 2 ≤ 3 by omega, ?_, by simp [retryDelayMs], rfl,
            fun hx => absurd hx hok0⟩
          intro i hi
          have hb : i + 1 < 2 := hi
          have hz : i = 0 := by omega
          subst hz
          exact ⟨h0, hr0.symm⟩
    · rw [fetchLoop_case_stop0 h0 hr0]
      exact ⟨show 1 ≤ 1 ∧ 1 ≤ 3 by omega,
        fun i hi => absurd hi (show ¬ (i + 1 < 1) by omega), by simp, rfl,
        fun hx => absurd hx hok0⟩

/-- C1: after validation, the endpoint issues at most 3 upstream attempts,
retries only after a 429/503, sleeps a fixed 2000 ms before each retry and
stops at the first success; 503,503,success gives 3 attempts and a 200;
three 503s surface the overload error; a non-429/503 failure surfaces
immediately with the status-specific message and bounded details. -/
theorem claim_C1_retry_policy (apiKey : Option String) (req : Req)
    (respAt : Nat → UpResp) (s : String)
    (hm : req.method = "POST") (hk : apiKeyTruthy apiKey = true)
    (ha : audioField req.body = some s) (hl : ¬ (base64Decode s).length < 1000) :
    (1 ≤ (fetchLoop respAt).attempts ∧ (fetchLoop respAt).attempts ≤ 3)
    ∧ (handler apiKey req respAt).upstreamCalls = (fetchLoop respAt).attempts
    ∧ (∀ i, i + 1 < (fetchLoop respAt).attempts →
        (respAt i).ok = false ∧ ((respAt i).status = 429 ∨ (respAt i).status = 503))
    ∧ (fetchLoop respAt).delays = List.replicate ((fetchLoop respAt).attempts - 1) 2000
    ∧ (fetchLoop respAt).final = respAt ((fetchLoop respAt).attempts - 1)
    ∧ ((respAt 0).ok = true → (fetchLoop respAt).attempts = 1)
    ∧ ((respAt 0).status = 503 → (respAt 1).status = 503 → (respAt 2).status = 200 →
        (fetchLoop respAt).attempts = 3
        ∧ (handler apiKey req respAt).resp =
            .success (normalizeResponse (respAt 2).parts).1
              (normalizeResponse (respAt 2).parts).2)
    ∧ ((respAt 0).status = 503 → (respAt 1).status = 503 → (respAt 2).status = 503 →
        (fetchLoop respAt).attempts = 3
        ∧ (handler apiKey req respAt).resp =
            .failure 503 "Model overloaded" (some ("Gemini is busy. Try again in a moment.")))
    ∧ ((respAt 0).ok = false → (respAt 0).status ≠ 429 → (respAt 0).status ≠ 503 →
        (fetchLoop respAt).attempts = 1
        ∧ (handler apiKey req respAt).resp =
            .failure 502
              (if (respAt 0).status = 401 then ("Invalid API key")
                else ("Upstream API error"))
              (some ⟨(respAt 0).body.data.take 200⟩))
    ∧ ((respAt 0).status = 429 → (respAt 1).status = 429 → (respAt 2).status = 429 →
        (handler apiKey req respAt).resp =
          .failure 429 "Quota exceeded"
            (some ("Gemini rate limit reached. Wait a minute or check your plan at ai.google.dev.")))
    ∧ (∀ st er dt, (handler apiKey req respAt).resp = .failure st er (some dt) →
        dt.length ≤ 200) := by
  have hshape := fetchLoop_shape respAt
  refine ⟨hshape.1, (handler_valid_proj hm hk ha hl).1, hshape.2.1, hshape.2.2.1,
    hshape.2.2.2.1, hshape.2.2.2.2, ?_, ?_, ?_, ?_, handler_details_bound hm hk ha hl⟩
  · intro hs0 hs1 hs2
    have h0 := notOk_of_status hs0 (by omega)
    have h1 := notOk_of_status hs1 (by omega)
    have h2 : (respAt 2).ok = true := by simp [UpResp.ok, hs2]
    have hfl := fetchLoop_case_ok2 h0 (Or.inl hs0) h1 (Or.inl hs1) h2
    refine ⟨by rw [hfl], ?_⟩
    rw [handler_resp_ok hm hk ha hl (by rw [hfl]; exact h2), hfl]
  · intro hs0 hs1 hs2
    have h0 := notOk_of_status hs0 (by omega)
    have h1 := notOk_of_status hs1 (by omega)
    have h2 := notOk_of_status hs2 (by omega)
    have hfl := fetchLoop_case_stop2 h0 (Or.inl hs0) h1 (Or.inl hs1) h2
    refine ⟨by rw [hfl], ?_⟩
    exact handler_resp_503 hm hk ha hl (by rw [hfl]; exact h2) (by rw [hfl]; exact hs2)
  · intro h0 hn429 hn503
    have hnr : ¬ ((respAt 0).status = 503 ∨ (respAt 0).status = 429) := by
      intro hx
      rcases hx with hx | hx
      · exact hn503 hx
      · exact hn429 hx
    have hfl := fetchLoop_case_stop0 h0 hnr
    refine ⟨by rw [hfl], ?_⟩
    rw [handler_resp_other hm hk ha hl (by rw [hfl]; exact h0)
      (by rw [hfl]; exact hn429) (by rw [hfl]; exact hn503), hfl]
  · intro hs0 hs1 hs2
    have h0 := notOk_of_status hs0 (by omega)
    have h1 := notOk_of_status hs1 (by omega)
    have h2 := notOk_of_status hs2 (by omega)
    have hfl := fetchLoop_case_stop2 h0 (Or.inr hs0) h1 (Or.inr hs1) h2
    exact handler_resp_429 hm hk ha hl (by rw [hfl]; exact h2) (by rw [hfl]; exact hs2)

theorem takeWhile_replicate_pos {α} (p : α → Bool) (a : α) (h : p a = true) (n : Nat) :
    (List.replicate n a).takeWhile p = List.replicate n a := by
  induction n with
  | zero => rfl
  | succ n ih => simp [List.replicate_succ, List.takeWhile_cons, h, ih]

theorem filterMap_replicate_some {α β} (f : α → Option β) (a : α) (b : β)
    (h : f a = some b) (n : Nat) :
    (List.replicate n a).filterMap f = List.replicate n b := by
  induction n with
  | zero => rfl
  | succ n ih => simp [List.replicate_succ, List.filterMap_cons, h, ih]

theorem b64groups_replicate_zero (k : Nat) :
    b64groups (List.replicate (4 * k) 0) = List.replicate (3 * k) 0 := by
  induction k with
  | zero => rfl
  | succ k ih =>
    have h4 : 4 * (k + 1) = ((((4 * k) + 1) + 1) + 1) + 1 := by ring
    have h3 : 3 * (k + 1) = (((3 * k) + 1) + 1) + 1 := by ring
    rw [h4, List.replicate_succ, List.replicate_succ, List.replicate_succ,
      List.replicate_succ, h3, List.replicate_succ, List.replicate_succ,
      List.replicate_succ]
    show (0 * 4 + 0 / 16) :: ((0 % 16) * 16 + 0 / 4) :: ((0 % 4) * 64 + 0) ::
        b64groups (List.replicate (4 * k) 0) = _
    rw [ih]

theorem base64_replicateA_length :
    1000 ≤ (base64Decode (String.mk (List.replicate 1336 ('A')))).length := by
  unfold base64Decode
  show 1000 ≤ (b64groups ((List.replicate 1336 ('A')).takeWhile
    (fun c => c ≠ '=') |>.filterMap base64CharVal)).length
  rw [takeWhile_replicate_pos _ _ (by decide),
    filterMap_replicate_some base64CharVal ('A') 0 (by decide),
    show (1336 : Nat) = 4 * 334 by norm_num, b64groups_replicate_zero]
  rw [List.length_replicate]
  norm_num

/-- C1 witness: a concrete valid request against an upstream returning
503, 503, then 200 makes exactly three attempts and succeeds. -/
theorem claim_C1_retry_policy_witness :
    (fetchLoop (fun n => if n = 2 then ⟨200, "", []⟩ else ⟨503, "busy", []⟩)).attempts = 3
    ∧ (handler (some ("k"))
        ⟨"POST", some ⟨some (.str (String.mk (List.replicate 1336 ('A')))), none⟩⟩
        (fun n => if n = 2 then ⟨200, "", []⟩ else ⟨503, "busy", []⟩)).resp =
      .success none [] := by
  have h := claim_C1_retry_policy (some ("k"))
    ⟨"POST", some ⟨some (.str (String.mk (List.replicate 1336 ('A')))), none⟩⟩
    (fun n => if n = 2 then ⟨200, "", []⟩ else ⟨503, "busy", []⟩)
    (String.mk (List.replicate 1336 ('A')))
    rfl (by decide) rfl (not_lt.mpr base64_replicateA_length)
  have hs := h.2.2.2.2.2.2.1 rfl rfl rfl
  exact ⟨hs.1, hs.2⟩

/-- C6: a wrong method, a missing/non-string/empty audio field, or audio
decoding to fewer than 1000 bytes is rejected before any upstream call:
the upstream call count is zero, and (whenever the server credential is
configured) the status is in the 400 class. -/
theorem claim_C6_input_validation (apiKey : Option String) (req : Req)
    (respAt : Nat → UpResp) :
    (req.method ≠ "POST" →
      handler apiKey req respAt = ⟨.failure 405 "Method not allowed" none, 0, [], none⟩)
    ∧ (req.method = "POST" → apiKeyTruthy apiKey = true → audioField req.body = none →
      handler apiKey req respAt =
        ⟨.failure 400 "Missing audioBase64 in body" none, 0, [], none⟩)
    ∧ (∀ s : String, req.method = "POST" → apiKeyTruthy apiKey = true →
        audioField req.body = some s → (base64Decode s).length < 1000 →
        handler apiKey req respAt =
          ⟨.failure 400 "Audio too short. Hold the mic a bit longer." none, 0, [], none⟩)
    ∧ ((req.method ≠ "POST" ∨ audioField req.body = none ∨
        (∃ s, audioField req.body = some s ∧ (base64Decode s).length < 1000)) →
      (handler apiKey req respAt).upstreamCalls = 0)
    ∧ (apiKeyTruthy apiKey = true →
      (req.method ≠ "POST" ∨ audioField req.body = none ∨
        (∃ s, audioField req.body = some s ∧ (base64Decode s).length < 1000)) →
      400 ≤ (handler apiKey req respAt).resp.status
        ∧ (handler apiKey req respAt).resp.status < 500) := by
  refine ⟨?_, ?_, ?_, ?_, ?_⟩
  · intro hm
    unfold handler
    rw [if_pos hm]
  · intro hm hk ha
    unfold handler
    rw [if_neg (by simp [hm]), if_neg (by simp [hk]), ha]
  · intro s hm hk ha hl
    unfold handler
    rw [if_neg (by simp [hm]), if_neg (by simp [hk]), ha]
    simp only [if_pos hl]
  · intro hcase
    by_cases hm : req.method = "POST"
    · by_cases hk : apiKeyTruthy apiKey = true
      · rcases hcase with hc | hc | hc
        · exact absurd hm hc
        · unfold handler
          rw [if_neg (by simp [hm]), if_neg (by simp [hk]), hc]
        · rcases hc with ⟨s, hs, hl⟩
          unfold handler
          rw [if_neg (by simp [hm]), if_neg (by simp [hk]), hs]
          simp only [if_pos hl]
      · unfold handler
        rw [if_neg (by simp [hm]), if_pos (by simp [hk])]
    · unfold handler
      rw [if_pos hm]
  · intro hk hcase
    rcases hcase with hc | hc | hc
    · unfold handler
      rw [if_pos hc]
      exact show (400 : Nat) ≤ 405 ∧ (405 : Nat) < 500 by omega
    · by_cases hm : req.method = "POST"
      · unfold handler
        rw [if_neg (by simp [hm]), if_neg (by simp [hk]), hc]
        exact show (400 : Nat) ≤ 400 ∧ (400 : Nat) < 500 by omega
      · unfold handler
        rw [if_pos hm]
        exact show (400 : Nat) ≤ 405 ∧ (405 : Nat) < 500 by omega
    · rcases hc with ⟨s, hs, hl⟩
      by_cases hm : req.method = "POST"
      · unfold handler
        rw [if_neg (by simp [hm]), if_neg (by simp [hk]), hs]
        simp only [if_pos hl]
        exact show (400 : Nat) ≤ 400 ∧ (400 : Nat) < 500 by omega
      · unfold handler
        rw [if_pos hm]
        exact show (400 : Nat) ≤ 405 ∧ (405 : Nat) < 500 by omega

/-- C6 witness: a GET request, a bodyless POST, and a too-short payload are
each rejected with zero upstream calls. -/
theorem claim_C6_input_validation_witness :
    handler (some ("k")) ⟨"GET", none⟩ (fun _ => ⟨200, "", []⟩) =
      ⟨.failure 405 "Method not allowed" none, 0, [], none⟩
    ∧ handler (some ("k")) ⟨"POST", none⟩ (fun _ => ⟨200, "", []⟩) =
      ⟨.failure 400 "Missing audioBase64 in body" none, 0, [], none⟩
    ∧ handler (some ("k")) ⟨"POST", some ⟨some (.str ("QUJD")), none⟩⟩
        (fun _ => ⟨200, "", []⟩) =
      ⟨.failure 400 "Audio too short. Hold the mic a bit longer." none, 0, [], none⟩
    ∧ (handler (some ("k")) ⟨"POST", some ⟨some (.str ("QUJD")), none⟩⟩
        (fun _ => ⟨200, "", []⟩)).upstreamCalls = 0 := by
  have h1 := claim_C6_input_validation (some ("k")) ⟨"GET", none⟩ (fun _ => ⟨200, "", []⟩)
  have h2 := claim_C6_input_validation (some ("k")) ⟨"POST", none⟩ (fun _ => ⟨200, "", []⟩)
  have h3 := claim_C6_input_validation (some ("k"))
    ⟨"POST", some ⟨some (.str ("QUJD")), none⟩⟩ (fun _ => ⟨200, "", []⟩)
  refine ⟨h1.1 (by decide), h2.2.1 rfl (by decide) rfl, ?_, ?_⟩
  · exact h3.2.2.1 ("QUJD") rfl (by decide) rfl (by decide)
  · exact h3.2.2.2.1 (Or.inr (Or.inr ⟨"QUJD", rfl, by decide⟩))

/-- C10: the endpoint result never depends on the preferredLanguage field
(so no request is rejected because of it); the Portuguese instruction
variant is selected exactly when the field is the string pt-BR, and any
other value (absent, non-string, unsupported) falls back to en-US. -/
theorem claim_C10_language_selection :
    (∀ (apiKey : Option String) (method : String) (audio : Option JsVal)
        (pl pl2 : Option JsVal) (respAt : Nat → UpResp),
      handler apiKey ⟨method, some ⟨audio, pl⟩⟩ respAt
        = handler apiKey ⟨method, some ⟨audio, pl2⟩⟩ respAt)
    ∧ (∀ body : Option ReqBody,
        selectLanguage body = "pt-BR" ∨ selectLanguage body = "en-US")
    ∧ (∀ body : Option ReqBody,
        selectLanguage body = "pt-BR" ↔
          ∃ b, body = some b ∧ b.preferredLanguage = some (.str ("pt-BR")))
    ∧ (∀ req : Req,
        handlerInstruction req = languageInstruction ("pt-BR") ↔
          selectLanguage req.body = "pt-BR") := by
  have hsel : ∀ body : Option ReqBody,
      selectLanguage body = "pt-BR" ∨ selectLanguage body = "en-US" := by
    intro body
    cases body with
    | none => exact Or.inr rfl
    | some b =>
      cases hb : b.preferredLanguage with
      | none => right; simp [selectLanguage, hb]
      | some v =>
        cases v with
        | str sv =>
          by_cases hv : sv = "pt-BR"
          · left; simp [selectLanguage, hb, hv]
          · right; simp [selectLanguage, hb, hv]
        | other => right; simp [selectLanguage, hb]
  refine ⟨?_, hsel, ?_, ?_⟩
  · intro apiKey method audio pl pl2 respAt
    rfl
  · intro body
    constructor
    · intro hpt
      cases body with
      | none => simp [selectLanguage] at hpt
      | some b =>
        refine ⟨b, rfl, ?_⟩
        cases hb : b.preferredLanguage with
        | none => simp [selectLanguage, hb] at hpt
        | some v =>
          cases v with
          | str sv =>
            by_cases hv : sv = "pt-BR"
            · subst hv
              rfl
            · simp [selectLanguage, hb, hv] at hpt
          | other => simp [selectLanguage, hb] at hpt
    · intro hx
      rcases hx with ⟨b, hb, hp⟩
      subst hb
      simp [selectLanguage, hp]
  · intro req
    constructor
    · intro hins
      rcases hsel req.body with h | h
      · exact h
      · unfold handlerInstruction at hins
        rw [h] at hins
        exact absurd hins (by decide)
    · intro hsel2
      unfold handlerInstruction
      rw [hsel2]

/-- C10 witness: concrete variants — pt-BR selects the Portuguese
instruction, an unsupported code falls back, and swapping the field does
not change the endpoint result. -/
theorem claim_C10_language_selection_witness :
    handler none ⟨"GET", some ⟨none, some (.str ("fr-FR"))⟩⟩ (fun _ => ⟨200, "", []⟩)
      = handler none ⟨"GET", some ⟨none, none⟩⟩ (fun _ => ⟨200, "", []⟩)
    ∧ selectLanguage (some ⟨none, some (.str ("pt-BR"))⟩) = "pt-BR"
    ∧ selectLanguage (some ⟨none, some (.str ("fr-FR"))⟩) = "en-US"
    ∧ selectLanguage (some ⟨none, some .other⟩) = "en-US"
    ∧ selectLanguage none = "en-US" := by
  have h := claim_C10_language_selection
  refine ⟨h.1 none "GET" none (some (.str ("fr-FR"))) none (fun _ => ⟨200, "", []⟩),
    (h.2.2.1 _).mpr ⟨_, rfl, rfl⟩, ?_, ?_, ?_⟩
  · rcases h.2.1 (some ⟨none, some (.str ("fr-FR"))⟩) with hx | hx
    · exact absurd ((h.2.2.1 _).mp hx) (by decide)
    · exact hx
  · rcases h.2.1 (some ⟨none, some .other⟩) with hx | hx
    · exact absurd ((h.2.2.1 _).mp hx) (by decide)
    · exact hx
  · rcases h.2.1 none with hx | hx
    · exact absurd ((h.2.2.1 _).mp hx) (by decide)
    · exact hx

/-- C7: `stopInput` is idempotent: only a first call on an active session
has any effect — it releases the capture device, emits exactly one
submission carrying the concatenation of the accumulated chunks (none in
testing mode), and a second call is a complete no-op; no other operation
emits a network payload; the emitted bytes get the 44-byte WAV header
prepended by the endpoint. -/
theorem claim_C7_stop_input_idempotent (st : SvcState) :
    (svcStep (svcStep st .stopInput).1 .stopInput).1 = (svcStep st .stopInput).1
    ∧ (svcStep (svcStep st .stopInput).1 .stopInput).2 = none
    ∧ (st.active = false → svcStep st .stopInput = (st, none))
    ∧ (st.active = true →
        (svcStep st .stopInput).1.active = false
        ∧ (svcStep st .stopInput).1.deviceHeld = false
        ∧ (st.testingMode = false →
            (svcStep st .stopInput).2 = some (samplesBytes (concatChunks st.pcmChunks)))
        ∧ (st.testingMode = true → (svcStep st .stopInput).2 = none))
    ∧ (∀ (op : SvcOp) (s2 : SvcState), op ≠ SvcOp.stopInput → (svcStep s2 op).2 = none)
    ∧ (∀ payload : List Nat, (svcStep st .stopInput).2 = some payload →
        pcmToWav payload = wavHeader payload.length ++ payload) := by
  refine ⟨?_, ?_, ?_, ?_, ?_, fun payload _ => rfl⟩
  · by_cases ha : st.active = true
    · simp [svcStep, ha]
    · simp only [Bool.not_eq_true] at ha
      simp [svcStep, ha]
  · by_cases ha : st.active = true
    · simp [svcStep, ha]
    · simp only [Bool.not_eq_true] at ha
      simp [svcStep, ha]
  · intro ha
    simp [svcStep, ha]
  · intro ha
    by_cases ht : st.testingMode = true
    · simp [svcStep, ha, ht]
    · simp only [Bool.not_eq_true] at ht
      simp [svcStep, ha, ht]
  · intro op s2 hop
    cases op with
    | start => rfl
    | frame samples =>
      by_cases h : s2.active = true
      · simp [svcStep, h]
      · simp only [Bool.not_eq_true] at h
        simp [svcStep, h]
    | stopInput => exact absurd rfl hop
    | cancel => rfl

/-- C7 witness: a concrete active session emits one payload on the first
stop and nothing on the second. -/
theorem claim_C7_stop_input_idempotent_witness :
    (svcStep ⟨true, true, false, [[1, 2], [3]]⟩ .stopInput).2 =
      some (samplesBytes [1, 2, 3])
    ∧ (svcStep (svcStep ⟨true, true, false, [[1, 2], [3]]⟩ .stopInput).1 .stopInput).2 = none
    ∧ (svcStep ⟨true, true, false, [[1, 2], [3]]⟩ .cancel).2 = none := by
  have h := claim_C7_stop_input_idempotent ⟨true, true, false, [[1, 2], [3]]⟩
  refine ⟨?_, h.2.1, h.2.2.2.2.1 .cancel _ (by decide)⟩
  have h2 := (h.2.2.2.1 rfl).2.2.1 rfl
  rw [h2]
  rfl

/-- C4: `handleFoodLogged` appends the converted item optimistically
(creating the meal lazily when none is active) before the persistence
insert; an insert failure removes exactly that item, removes the meal iff
it was newly created for this item, surfaces the error, and leaves every
other item and meal unchanged. -/
theorem claim_C4_food_logged_rollback
    (st : AppState) (food : FoodData) (newItemId : String) (ts : Nat)
    (freshMeal : MealGroup) (u : String) (errMsg : String)
    (hni : ∀ it ∈ st.items, it.id ≠ newItemId)
    (hnm : ∀ m ∈ st.meals, m.id ≠ freshMeal.id) :
    (foodLoggedOptimistic st food newItemId ts freshMeal).1.items
        = (foodLoggedOptimistic st food newItemId ts freshMeal).2.1 :: st.items
    ∧ (foodLoggedOptimistic st food newItemId ts freshMeal).2.1
        = ⟨newItemId, st.activeMealId.getD freshMeal.id, food.name, food.quantity,
            food.calories, food.protein, food.carbs, food.fat, food.fiber,
            food.micronutrients, ts⟩
    ∧ (st.activeMealId = none →
        (foodLoggedOptimistic st food newItemId ts freshMeal).1.meals = freshMeal :: st.meals
        ∧ (foodLoggedOptimistic st food newItemId ts freshMeal).2.2 = some freshMeal)
    ∧ (∀ m0, st.activeMealId = some m0 →
        (foodLoggedOptimistic st food newItemId ts freshMeal).1.meals = st.meals
        ∧ (foodLoggedOptimistic st food newItemId ts freshMeal).2.2 = none)
    ∧ handleFoodLogged st food newItemId ts freshMeal none true errMsg
        = (foodLoggedOptimistic st food newItemId ts freshMeal).1
    ∧ handleFoodLogged st food newItemId ts freshMeal (some u) true errMsg
        = (foodLoggedOptimistic st food newItemId ts freshMeal).1
    ∧ (handleFoodLogged st food newItemId ts freshMeal (some u) false errMsg).items = st.items
    ∧ (handleFoodLogged st food newItemId ts freshMeal (some u) false errMsg).meals = st.meals
    ∧ (handleFoodLogged st food newItemId ts freshMeal (some u) false errMsg).error
        = some errMsg
    ∧ (∀ (s2 : AppState) (it : FoodItem),
        it ∈ (foodLoggedRollback newItemId (some freshMeal.id) errMsg s2).items ↔
          it ∈ s2.items ∧ it.id ≠ newItemId)
    ∧ (∀ (s2 : AppState) (m : MealGroup),
        m ∈ (foodLoggedRollback newItemId (some freshMeal.id) errMsg s2).meals ↔
          m ∈ s2.meals ∧ m.id ≠ freshMeal.id)
    ∧ (∀ s2 : AppState, (foodLoggedRollback newItemId none errMsg s2).meals = s2.meals) := by
  obtain ⟨items0, meals0, act0, cnt0, err0⟩ := st
  have hmemItems : ∀ (s2 : AppState) (it : FoodItem),
      it ∈ (foodLoggedRollback newItemId (some freshMeal.id) errMsg s2).items ↔
        it ∈ s2.items ∧ it.id ≠ newItemId := by
    intro s2 it
    simp [foodLoggedRollback, List.mem_filter]
  have hmemMeals : ∀ (s2 : AppState) (m : MealGroup),
      m ∈ (foodLoggedRollback newItemId (some freshMeal.id) errMsg s2).meals ↔
        m ∈ s2.meals ∧ m.id ≠ freshMeal.id := by
    intro s2 m
    simp [foodLoggedRollback, List.mem_filter]
  have hfilterItems : ∀ l : List FoodItem, (∀ it ∈ l, it.id ≠ newItemId) →
      l.filter (fun it => decide (it.id ≠ newItemId)) = l := by
    intro l hl
    apply List.filter_eq_self.mpr
    intro a ha
    simp [hl a ha]
  have hfilterMeals : ∀ l : List MealGroup, (∀ m ∈ l, m.id ≠ freshMeal.id) →
      l.filter (fun m => decide (m.id ≠ freshMeal.id)) = l := by
    intro l hl
    apply List.filter_eq_self.mpr
    intro a ha
    simp [hl a ha]
  cases act0 with
  | none =>
    refine ⟨rfl, rfl, fun _ => ⟨rfl, rfl⟩, fun m1 hm1 => absurd hm1 (by simp), rfl, rfl,
      ?_, ?_, rfl, hmemItems, hmemMeals, fun s2 => rfl⟩
    · show (((⟨newItemId, freshMeal.id, food.name, food.quantity, food.calories,
          food.protein, food.carbs, food.fat, food.fiber, food.micronutrients, ts⟩ :
            FoodItem)) :: items0).filter (fun it => decide (it.id ≠ newItemId)) = items0
      rw [List.filter_cons_of_neg (by simp)]
      exact hfilterItems items0 hni
    · show (freshMeal :: meals0).filter (fun m => decide (m.id ≠ freshMeal.id)) = meals0
      rw [List.filter_cons_of_neg (by simp)]
      exact hfilterMeals meals0 hnm
  | some m0 =>
    refine ⟨rfl, rfl, fun hx => absurd hx (by simp), fun m1 hm1 => ⟨rfl, rfl⟩, rfl, rfl,
      ?_, rfl, rfl, hmemItems, hmemMeals, fun s2 => rfl⟩
    show (((⟨newItemId, m0, food.name, food.quantity, food.calories,
        food.protein, food.carbs, food.fat, food.fiber, food.micronutrients, ts⟩ :
          FoodItem)) :: items0).filter (fun it => decide (it.id ≠ newItemId)) = items0
    rw [List.filter_cons_of_neg (by simp)]
    exact hfilterItems items0 hni

/-- C4 witness: with an active meal, a failed insert removes exactly the
new item; with no active meal, a fresh meal is created and also removed. -/
theorem claim_C4_food_logged_rollback_witness :
    (handleFoodLogged
        ⟨[⟨"i0", "m0", "rice", "1 cup", 100, 2, 20, 1, 1, none, 0⟩], [], some ("m0"), 1,
          none⟩
        ⟨"beans", "1 cup", 120, 8, 20, 1, 5, none⟩ ("i1") 2 ⟨"mF", "Meal", 2, none, false⟩
        (some ("u")) false ("boom")).items
      = [⟨"i0", "m0", "rice", "1 cup", 100, 2, 20, 1, 1, none, 0⟩]
    ∧ (handleFoodLogged ⟨[], [], none, 0, none⟩
        ⟨"beans", "1 cup", 120, 8, 20, 1, 5, none⟩ ("i1") 2 ⟨"mF", "Meal", 2, none, false⟩
        (some ("u")) false ("boom")).meals = []
    ∧ (handleFoodLogged ⟨[], [], none, 0, none⟩
        ⟨"beans", "1 cup", 120, 8, 20, 1, 5, none⟩ ("i1") 2 ⟨"mF", "Meal", 2, none, false⟩
        (some ("u")) true ("boom")).meals = [⟨"mF", "Meal", 2, none, false⟩] := by
  have h1 := claim_C4_food_logged_rollback
    ⟨[⟨"i0", "m0", "rice", "1 cup", 100, 2, 20, 1, 1, none, 0⟩], [], some ("m0"), 1, none⟩
    ⟨"beans", "1 cup", 120, 8, 20, 1, 5, none⟩ ("i1") 2 ⟨"mF", "Meal", 2, none, false⟩
    ("u") ("boom") (by decide) (by decide)
  have h2 := claim_C4_food_logged_rollback ⟨[], [], none, 0, none⟩
    ⟨"beans", "1 cup", 120, 8, 20, 1, 5, none⟩ ("i1") 2 ⟨"mF", "Meal", 2, none, false⟩
    ("u") ("boom") (by decide) (by decide)
  refine ⟨h1.2.2.2.2.2.2.1, h2.2.2.2.2.2.2.2.1, ?_⟩
  rw [h2.2.2.2.2.2.1]
  exact congrArg AppState.meals (congrArg Prod.fst rfl) |>.trans ((h2.2.2.1 rfl).1)

/-- C5: the pruning effect keeps exactly the meals referenced by an item
or equal to the active recording meal, mirrors each removal to the
persistence collaborator when a user session exists, and the close of a
recording with zero logged foods deletes the active meal locally and
remotely. -/
theorem claim_C5_orphan_meal_pruning (items : List FoodItem) (activeId : Option String)
    (userId : Option String) (meals : List MealGroup) (st : AppState) (mid : String) :
    (∀ m ∈ (pruneMeals items activeId userId meals).1,
      (∃ it ∈ items, it.mealId = m.id) ∨ activeId = some m.id)
    ∧ (∀ m ∈ meals, ((∃ it ∈ items, it.mealId = m.id) ∨ activeId = some m.id) →
        m ∈ (pruneMeals items activeId userId meals).1)
    ∧ (userId.isSome = true → ∀ m ∈ meals,
        ¬ ((∃ it ∈ items, it.mealId = m.id) ∨ activeId = some m.id) →
        m.id ∈ (pruneMeals items activeId userId meals).2)
    ∧ (userId = none → (pruneMeals items activeId userId meals).2 = [])
    ∧ (st.activeMealId = some mid → st.recordingFoodsCount = 0 →
        (onCloseModel st).1.meals = st.meals.filter (fun m => decide (m.id ≠ mid))
        ∧ (∀ m ∈ (onCloseModel st).1.meals, m.id ≠ mid)
        ∧ (onCloseModel st).2 = [mid]
        ∧ (onCloseModel st).1.activeMealId = none)
    ∧ (st.activeMealId = some mid → st.recordingFoodsCount ≠ 0 →
        (onCloseModel st).2 = []
        ∧ (onCloseModel st).1.meals =
            st.meals.map (fun m => if m.id = mid then { m with isLoading := false } else m)) := by
  obtain ⟨sitems, smeals, act0, cnt0, serr⟩ := st
  have hmem : ∀ m : MealGroup,
      (m.id ∈ items.map FoodItem.mealId ∨ activeId = some m.id) ↔
        ((∃ it ∈ items, it.mealId = m.id) ∨ activeId = some m.id) := by
    intro m
    rw [List.mem_map]
  refine ⟨?_, ?_, ?_, ?_, ?_, ?_⟩
  · intro m hm
    have h2 := (List.mem_filter.mp hm).2
    simp only [decide_eq_true_eq] at h2
    exact (hmem m).mp h2
  · intro m hm hcond
    apply List.mem_filter.mpr
    refine ⟨hm, ?_⟩
    simp only [decide_eq_true_eq]
    exact (hmem m).mpr hcond
  · intro hu m hm hviol
    rcases Option.isSome_iff_exists.mp hu with ⟨uv, huv⟩
    subst huv
    show m.id ∈ List.map MealGroup.id (meals.filter
      (fun m2 => decide (¬ (m2.id ∈ items.map FoodItem.mealId ∨ activeId = some m2.id))))
    apply List.mem_map.mpr
    refine ⟨m, ?_, rfl⟩
    apply List.mem_filter.mpr
    refine ⟨hm, ?_⟩
    simp only [decide_eq_true_eq]
    intro hx
    exact hviol ((hmem m).mp hx)
  · intro hu
    subst hu
    rfl
  · intro hact hz
    subst hact
    subst hz
    have he : onCloseModel ⟨sitems, smeals, some mid, 0, serr⟩
        = ({ items := sitems,
             meals := smeals.filter (fun m => decide (m.id ≠ mid)),
             activeMealId := none, recordingFoodsCount := 0, error := serr }, [mid]) := rfl
    rw [he]
    refine ⟨rfl, ?_, rfl, rfl⟩
    intro m hm
    have h2 := (List.mem_filter.mp hm).2
    simpa using h2
  · intro hact hz
    subst hact
    have he : onCloseModel ⟨sitems, smeals, some mid, cnt0, serr⟩
        = (if cnt0 = 0 then
            ({ items := sitems,
               meals := smeals.filter (fun m => decide (m.id ≠ mid)),
               activeMealId := none, recordingFoodsCount := 0, error := serr }, [mid])
          else
            ({ items := sitems,
               meals := smeals.map
                 (fun m => if m.id = mid then { m with isLoading := false } else m),
               activeMealId := none, recordingFoodsCount := 0, error := serr }, [])) := rfl
    rw [he, if_neg hz]
    exact ⟨rfl, rfl⟩

/-- C5 witness: an orphan meal is pruned and its deletion mirrored, while
a referenced meal survives; an empty recording close deletes its meal. -/
theorem claim_C5_orphan_meal_pruning_witness :
    (pruneMeals [⟨"i0", "mA", "rice", "1", 1, 1, 1, 1, 1, none, 0⟩] none (some ("u"))
        [⟨"mA", "A", 0, none, false⟩, ⟨"mB", "B", 0, none, false⟩]).1
      = [⟨"mA", "A", 0, none, false⟩]
    ∧ (pruneMeals [⟨"i0", "mA", "rice", "1", 1, 1, 1, 1, 1, none, 0⟩] none (some ("u"))
        [⟨"mA", "A", 0, none, false⟩, ⟨"mB", "B", 0, none, false⟩]).2 = ["mB"]
    ∧ (onCloseModel ⟨[], [⟨"mC", "C", 0, none, true⟩], some ("mC"), 0, none⟩).1.meals = []
    ∧ (onCloseModel ⟨[], [⟨"mC", "C", 0, none, true⟩], some ("mC"), 0, none⟩).2 = ["mC"] := by
  have h := claim_C5_orphan_meal_pruning
    [⟨"i0", "mA", "rice", "1", 1, 1, 1, 1, 1, none, 0⟩] none (some ("u"))
    [⟨"mA", "A", 0, none, false⟩, ⟨"mB", "B", 0, none, false⟩]
    ⟨[], [⟨"mC", "C", 0, none, true⟩], some ("mC"), 0, none⟩ ("mC")
  have hclose := h.2.2.2.2.1 rfl rfl
  have hB : ("mB" : String) ∈ (pruneMeals [⟨"i0", "mA", "rice", "1", 1, 1, 1, 1, 1, none, 0⟩]
      none (some ("u")) [⟨"mA", "A", 0, none, false⟩, ⟨"mB", "B", 0, none, false⟩]).2 := by
    have := h.2.2.1 rfl ⟨"mB", "B", 0, none, false⟩ (by decide) (by decide)
    exact this
  refine ⟨by decide, ?_, ?_, hclose.2.2.1⟩
  · decide
  · rw [hclose.1]
    decide

/-- C3: editing an item quantity parses a leading amount from both the old
and the new quantity strings (decimals, simple fractions, mixed fractions);
when both are parseable and positive, the nutrition is rescaled by
`newAmount / oldAmount` — calories rounded to an integer, the other macros
to one decimal place, all floored at zero — and the numeric tokens of the
micronutrients text are scaled by the same factor; when either amount is
unparsable only the quantity text changes. -/
theorem claim_C3_quantity_rescaling (item : FoodItem) (q : String) (a b : ℚ) :
    (parseQuantityAmount item.quantity = some a → 0 < a →
      parseQuantityAmount q = some b → 0 < b →
      editItemQuantityItem item q =
        { item with
          quantity := q,
          calories := max 0 ((⌊item.calories * (b / a) + 1/2⌋ : ℚ)),
          protein := max 0 (roundTo1 (item.protein * (b / a))),
          carbs := max 0 (roundTo1 (item.carbs * (b / a))),
          fat := max 0 (roundTo1 (item.fat * (b / a))),
          fiber := max 0 (roundTo1 (item.fiber * (b / a))),
          micronutrients := scaleMicronutrientsText item.micronutrients (b / a) })
    ∧ (parseQuantityAmount item.quantity = none ∨ parseQuantityAmount q = none →
        editItemQuantityItem item q = { item with quantity := q })
    ∧ (∀ v : ℚ, roundTo1 v = (⌊v * 10 + 1/2⌋ : ℚ) / 10)
    ∧ parseQuantityAmount ("2 cups") = some 2
    ∧ parseQuantityAmount ("1/2 cup") = some (1/2)
    ∧ parseQuantityAmount ("1 1/2 cups") = some (3/2)
    ∧ parseQuantityAmount ("2.5") = some (5/2)
    ∧ parseQuantityAmount ("a pinch") = none
    ∧ parseQuantityAmount ("a dash") = none
    ∧ (∀ (items : List FoodItem) (itemId : String),
        editItemQuantityList items itemId q =
          items.map (fun it => if it.id = itemId then editItemQuantityItem it q else it)) := by
  refine ⟨?_, ?_, ?_, ?_, ?_, ?_, ?_, by decide, by decide, fun items itemId => rfl⟩
  · intro hpa hapos hpb hbpos
    have hf1 : optFalsy (some a) = false := by simp [optFalsy, hapos.ne']
    have hf2 : optFalsy (some b) = false := by simp [optFalsy, hbpos.ne']
    have hpos : 0 < ratDiv b a := by
      rw [ratDiv_eq]
      exact div_pos hbpos hapos
    have hpos2 : 0 < b / a := div_pos hbpos hapos
    unfold editItemQuantityItem scaleFoodNutrition
    rw [hpa, hpb]
    simp only [hf1, hf2, Bool.or_self, Bool.false_eq_true, if_false, Option.getD_some,
      if_pos hpos, if_pos hpos2, ratMul_eq, ratDiv_eq, jsRound_eq]
  · intro hcase
    rcases hcase with h | h
    · unfold editItemQuantityItem
      rw [h]
      simp only [optFalsy, Bool.true_or, if_true]
    · unfold editItemQuantityItem
      rw [h]
      simp only [optFalsy, Bool.or_true, if_true]
  · intro v
    exact roundTo1_eq v
  · decide
  · rw [show ((1 : ℚ)/2) = mkRat 1 2 by rw [Rat.mkRat_eq_div]; norm_num]
    decide
  · rw [show ((3 : ℚ)/2) = mkRat 3 2 by rw [Rat.mkRat_eq_div]; norm_num]
    decide
  · rw [show ((5 : ℚ)/2) = mkRat 5 2 by rw [Rat.mkRat_eq_div]; norm_num]
    decide

/-- C3 witness: "2 cups" edited to "4 cups" doubles the nutrition
(calories 200 to 400, micronutrient tokens doubled), and an unparsable pair
only replaces the quantity text. -/
theorem claim_C3_quantity_rescaling_witness :
    parseQuantityAmount ("2 cups") = some 2
    ∧ parseQuantityAmount ("4 cups") = some 4
    ∧ editItemQuantityItem
        ⟨"i1", "m1", "oats", "2 cups", 200, 10, 30, 5, 2, some ("iron 1.5mg, zinc 8mg"), 7⟩
        ("4 cups")
      = ⟨"i1", "m1", "oats", "4 cups", 400, 20, 60, 10, 4, some ("iron 3mg, zinc 16mg"), 7⟩
    ∧ editItemQuantityItem
        ⟨"i1", "m1", "salt", "a pinch", 1, 0, 0, 0, 0, none, 7⟩ ("a dash")
      = ⟨"i1", "m1", "salt", "a dash", 1, 0, 0, 0, 0, none, 7⟩ := by
  have h := claim_C3_quantity_rescaling
    ⟨"i1", "m1", "oats", "2 cups", 200, 10, 30, 5, 2, some ("iron 1.5mg, zinc 8mg"), 7⟩
    ("4 cups") 2 4
  have h2 := claim_C3_quantity_rescaling
    ⟨"i1", "m1", "salt", "a pinch", 1, 0, 0, 0, 0, none, 7⟩ ("a dash") 2 4
  have hmain := h.1 (by decide) (by norm_num) (by decide) (by norm_num)
  have hdiv : ((4 : ℚ) / 2) = ratDiv 4 2 := (ratDiv_eq 4 2).symm
  refine ⟨h.2.2.2.1, by decide, ?_, ?_⟩
  · rw [hmain]
    rw [show (⌊(200 : ℚ) * (4 / 2) + 1/2⌋ : ℤ) = jsRound (ratMul 200 (ratDiv 4 2)) by
        rw [jsRound_eq, ratMul_eq, ratDiv_eq],
      show roundTo1 ((10 : ℚ) * (4 / 2)) = roundTo1 (ratMul 10 (ratDiv 4 2)) by
        rw [ratMul_eq, ratDiv_eq],
      show roundTo1 ((30 : ℚ) * (4 / 2)) = roundTo1 (ratMul 30 (ratDiv 4 2)) by
        rw [ratMul_eq, ratDiv_eq],
      show roundTo1 ((5 : ℚ) * (4 / 2)) = roundTo1 (ratMul 5 (ratDiv 4 2)) by
        rw [ratMul_eq, ratDiv_eq],
      show roundTo1 ((2 : ℚ) * (4 / 2)) = roundTo1 (ratMul 2 (ratDiv 4 2)) by
        rw [ratMul_eq, ratDiv_eq],
      hdiv]
    decide
  · exact h2.2.1 (Or.inl (by decide))

end NutritionLogger
